import Mathlib

/-!
# Verification of `simpleConsolePlot.hpp` (namespace `SCP`)

Shallow embedding of the plotting core of `src/simpleConsolePlot.hpp`:

* characters (`char`) are modelled as natural numbers (byte values), so
  `EMPTY = ' ' = 32` and `BLOCK = '\0' = 0`;
* the packed attribute byte `int8_t co` is modelled as a natural number; the
  bit operations of the source are written arithmetically on the byte:
  `co & 0x0f = co % 16`, `co & 0xf0 = co / 16 * 16` (for `co < 256`),
  `co & 0xf0 | color = co / 16 * 16 + color` and
  `co & 0x0f | color << 4 = co % 16 + color * 16` for palette colors
  (`color < 16`, the 16-entry palette of the `SCP` enum), and the int8_t
  truncation of `co << 4 | color` is `co % 16 * 16 + color`;
* `double` data coordinates are modelled as rationals with exact arithmetic;
  the C++ `double`-to-`int` conversion (truncation toward zero) is `ratTrunc`;
* the `double` infinities used by the auto-range accumulators (`minX` starts
  at `+inf`, `maxX` at `-inf`, ...) are modelled by `Option ℚ`, `none` being
  the "nothing observed yet" sentinel;
* the grid `Cell *printBuf` is modelled as a total function `ℕ → Cell`
  (index `x + (y/2)*w` as in the source); `std::unordered_map` buffers keyed
  by style are modelled as association lists in first-insertion order (the
  map's iteration order is unspecified in C++; it is fixed between mutations,
  which is all the render pass relies on).
-/

namespace SCP

/-- A cell of the render target: glyph byte `ch` and packed color byte `co`.
The source reuses this struct as the style key of the point/line buffers
(`ch` = character, `co` = color). -/
@[ext]
structure Cell where
  ch : ℕ
  co : ℕ
  deriving DecidableEq, Repr

/-- `Plot::EMPTY = ' '`. -/
def EMPTY : ℕ := 32

/-- `Plot::BLOCK = '\0'`, the sentinel glyph for half-block rendering. -/
def BLOCK : ℕ := 0

/-- Palette index `BLACK` of the `SCP` color enum. -/
def BLACK : ℕ := 0

/-- Palette index `RED` of the `SCP` color enum. -/
def RED : ℕ := 1

/-- Palette index `WHITE` of the `SCP` color enum. -/
def WHITE : ℕ := 15

/-- C++ `double`-to-`int` conversion on an exact rational value:
truncation toward zero. -/
def ratTrunc (q : ℚ) : ℤ := q.num.tdiv q.den

/-- The column computed by `printPoint`/`printLine`:
`(p.x - topLeft.x) * w / dx` cast to `int`. -/
def mapCol (x ox dX : ℚ) (w : ℕ) : ℤ := ratTrunc ((x - ox) * w / dX)

/-- The sub-row computed by `printPoint`/`printLine`:
`(p.y - topLeft.y) * h * 2 / dy` cast to `int`. -/
def mapSubrow (y oy dY : ℚ) (h : ℕ) : ℤ := ratTrunc ((y - oy) * h * 2 / dY)

/-- One `setCell` request: the arguments of a single `setCell(x, y, color,
character)` call. -/
structure Op where
  x : ℤ
  y : ℤ
  color : ℕ
  ch : ℕ
  deriving DecidableEq, Repr

/-- The grid index written by an in-bounds `setCell` call:
`printBuf[x + (y/2)*w]`. -/
def opIdx (w : ℕ) (op : Op) : ℕ := (op.x + op.y / 2 * (w : ℤ)).toNat

/-- The out-of-bounds test of `setCell`:
`x < 0 || x >= w || y < 0 || y >= h*2`. -/
def oob (w h : ℕ) (op : Op) : Prop :=
  op.x < 0 ∨ (w : ℤ) ≤ op.x ∨ op.y < 0 ∨ (h : ℤ) * 2 ≤ op.y

instance (w h : ℕ) (op : Op) : Decidable (oob w h op) := by
  unfold oob
  exact inferInstance

/-- The cell-content update performed by an in-bounds `setCell` call, lines
290–307 of the source, as a function of the target cell's previous content. -/
def cellWrite (bg : ℕ) (inv : Bool) (op : Op) (c : Cell) : Cell :=
  if op.ch = BLOCK then
    { ch := if c.ch = EMPTY then BLOCK else c.ch,
      co := if (if inv then op.y + 1 else op.y) % 2 = 1
            then c.co % 16 + op.color * 16
            else c.co / 16 * 16 + op.color }
  else
    { ch := op.ch,
      co := if c.ch = EMPTY then c.co / 16 * 16 + op.color
            else if c.ch = BLOCK then
              (if c.co % 16 ≠ bg then c.co % 16 * 16 + op.color
               else c.co / 16 * 16 + op.color)
            else if c.ch ≠ EMPTY ∧ c.ch ≠ op.ch then c.co % 16 * 16 + op.color
            else c.co }

/-- `Plot::setCell` on the grid: silent no-op when out of bounds, otherwise
rewrite the one cell `printBuf[x + (y/2)*w]` through `cellWrite`. -/
def setCellG (w h bg : ℕ) (inv : Bool) (g : ℕ → Cell) (x y : ℤ)
    (color ch : ℕ) : ℕ → Cell :=
  let op : Op := ⟨x, y, color, ch⟩
  if oob w h op then g
  else Function.update g (opIdx w op) (cellWrite bg inv op (g (opIdx w op)))

/-- One `setCell` call described by an `Op`. -/
def applyOp (w h bg : ℕ) (inv : Bool) (g : ℕ → Cell) (op : Op) : ℕ → Cell :=
  setCellG w h bg inv g op.x op.y op.color op.ch

/-- A sequence of `setCell` calls, first to last. -/
def applyOps (w h bg : ℕ) (inv : Bool) (g : ℕ → Cell) (ops : List Op) :
    ℕ → Cell :=
  ops.foldl (applyOp w h bg inv) g

/-- The `while(true)` loop of `printLine` (lines 325–339), with an explicit
fuel argument standing for the iteration count; `bresPath` always supplies
enough fuel for the exit condition `x1 == x2 && y1 == y2` to be reached, so
the fuel-exhausted branch is never taken.  Yields the list of coordinates
passed to `setCell`, in order. -/
def bresRun (x2 y2 dX dY sx sy : ℤ) : ℕ → ℤ → ℤ → ℤ → List (ℤ × ℤ)
  | 0, _, _, _ => []
  | n + 1, x1, y1, e1 =>
    (x1, y1) ::
      (if x1 = x2 ∧ y1 = y2 then []
       else
         let e2 := e1 * 2
         let xe := if e1 > -dY then (x1 + sx, e1 - dY) else (x1, e1)
         let ye := if e2 < dX then (y1 + sy, xe.2 + dX) else (y1, xe.2)
         bresRun x2 y2 dX dY sx sy n xe.1 ye.1 ye.2)

/-- The full Bresenham walk of `printLine` from mapped endpoint `(x1, y1)` to
mapped endpoint `(x2, y2)`: `dx = abs(x2-x1)`, `dy = abs(y2-y1)`, steps
`sx, sy = ±1` toward the target, initial error `dx - dy`. -/
def bresPath (x1 y1 x2 y2 : ℤ) : List (ℤ × ℤ) :=
  let dX := |x2 - x1|
  let dY := |y2 - y1|
  let sx : ℤ := if x1 < x2 then 1 else -1
  let sy : ℤ := if y1 < y2 then 1 else -1
  bresRun x2 y2 dX dY sx sy (dX.toNat + dY.toNat + 1) x1 y1 (dX - dY)

/-- The single `setCell` request of `printPoint` for point `p`. -/
def pointOp (tl : ℚ × ℚ) (dX dY : ℚ) (w h : ℕ) (p : ℚ × ℚ)
    (color ch : ℕ) : Op :=
  ⟨mapCol p.1 tl.1 dX w, mapSubrow p.2 tl.2 dY h, color, ch⟩

/-- The `setCell` requests of `printLine` for segment `l`, in order. -/
def lineOps (tl : ℚ × ℚ) (dX dY : ℚ) (w h : ℕ) (l : (ℚ × ℚ) × (ℚ × ℚ))
    (color ch : ℕ) : List Op :=
  (bresPath (mapCol l.1.1 tl.1 dX w) (mapSubrow l.1.2 tl.2 dY h)
            (mapCol l.2.1 tl.1 dX w) (mapSubrow l.2.2 tl.2 dY h)).map
    fun q => ⟨q.1, q.2, color, ch⟩

/-- The whole state of a `Plot` object.  Defaults model the default-initialized
object: `w = h = 10`, background `BLACK`, `range = false`, Y not inverted,
auto-range accumulators at their infinity sentinels (`none`), empty buffers.
`topLeft`, `dx`, `dy` are uninitialized in the source until first set; the
model arbitrarily starts them at `0`. -/
structure Plot where
  w : ℕ := 10
  h : ℕ := 10
  printBuf : ℕ → Cell := fun _ => ⟨EMPTY, 0⟩
  background : ℕ := BLACK
  range : Bool := false
  invertedY : Bool := false
  topLeft : ℚ × ℚ := (0, 0)
  dx : ℚ := 0
  dy : ℚ := 0
  minX : Option ℚ := none
  maxX : Option ℚ := none
  minY : Option ℚ := none
  maxY : Option ℚ := none
  points : List (Cell × List (ℚ × ℚ)) := []
  lines : List (Cell × List ((ℚ × ℚ) × (ℚ × ℚ))) := []

/-- `clearPlot`: every cell becomes `{EMPTY, background<<4|background}`
(written arithmetically for a palette background). -/
def clearPlotG (bg : ℕ) : ℕ → Cell := fun _ => ⟨EMPTY, bg * 16 + bg⟩

/-- `Plot::setSize`: store the dimensions and reinitialize the grid. -/
def Plot.setSize (s : Plot) (length lins : ℕ) : Plot :=
  { s with w := length, h := lins, printBuf := clearPlotG s.background }

/-- `Plot::setDrawRange`: store the window, `range = (dx != 0)`, and
reinitialize the grid. -/
def Plot.setDrawRange (s : Plot) (x1 y1 x2 y2 : ℚ) : Plot :=
  { s with topLeft := (x1, y1), dx := x2 - x1, dy := y2 - y1,
           range := decide (x2 - x1 ≠ 0), printBuf := clearPlotG s.background }

/-- `Plot::setBackgroundColor`. -/
def Plot.setBackgroundColor (s : Plot) (color : ℕ) : Plot :=
  { s with background := color }

/-- `Plot::invertYAxis`. -/
def Plot.invertYAxis (s : Plot) (a : Bool) : Plot :=
  { s with invertedY := a }

/-- `Plot::clearData`: reinitialize the grid, reset the auto-range
accumulators to their infinity sentinels, empty both buffers. -/
def Plot.clearData (s : Plot) : Plot :=
  { s with printBuf := clearPlotG s.background,
           minX := none, maxX := none, minY := none, maxY := none,
           points := [], lines := [] }

/-- `minX > v ? v : minX`, with `none` as the `+inf` start value. -/
def updMin : Option ℚ → ℚ → Option ℚ
  | none, v => some v
  | some m, v => if m > v then some v else some m

/-- `maxX < v ? v : maxX`, with `none` as the `-inf` start value. -/
def updMax : Option ℚ → ℚ → Option ℚ
  | none, v => some v
  | some m, v => if m < v then some v else some m

/-- `Plot::updateXYMinMax`. -/
def Plot.updateXYMinMax (s : Plot) (p : ℚ × ℚ) : Plot :=
  { s with minX := updMin s.minX p.1, minY := updMin s.minY p.2,
           maxX := updMax s.maxX p.1, maxY := updMax s.maxY p.2 }

/-- `buffer[key].push_back(v)` on an association-list model of the
`unordered_map` buffers: append to the entry of `key`, or create the entry.
New keys go to the end, so list order is first-insertion order. -/
def pushStyle {α : Type} (m : List (Cell × List α)) (key : Cell) (v : α) :
    List (Cell × List α) :=
  match m with
  | [] => [(key, [v])]
  | (k, vs) :: rest =>
    if k = key then (k, vs ++ [v]) :: rest else (k, vs) :: pushStyle rest key v

/-- `Plot::printPoint`: map the point and call `setCell`. -/
def Plot.printPoint (s : Plot) (p : ℚ × ℚ) (color ch : ℕ) : Plot :=
  let g := applyOp s.w s.h s.background s.invertedY s.printBuf
  { s with printBuf := g (pointOp s.topLeft s.dx s.dy s.w s.h p color ch) }

/-- `Plot::printLine`: map both endpoints and run the Bresenham loop, calling
`setCell` at every visited coordinate. -/
def Plot.printLine (s : Plot) (l : (ℚ × ℚ) × (ℚ × ℚ)) (color ch : ℕ) : Plot :=
  let g := applyOps s.w s.h s.background s.invertedY s.printBuf
  { s with printBuf := g (lineOps s.topLeft s.dx s.dy s.w s.h l color ch) }

/-- `Plot::point`: buffer the point under its style key; if an explicit window
is active draw it immediately, otherwise update the auto-range bounds. -/
def Plot.point (s : Plot) (x y : ℚ) (color ch : ℕ) : Plot :=
  let s1 := { s with points := pushStyle s.points ⟨ch, color⟩ (x, y) }
  if s.range then s1.printPoint (x, y) color ch
  else s1.updateXYMinMax (x, y)

/-- `Plot::line`: buffer the segment under its style key; if an explicit
window is active draw it immediately, otherwise update the auto-range bounds
with both endpoints. -/
def Plot.line (s : Plot) (x1 y1 x2 y2 : ℚ) (color ch : ℕ) : Plot :=
  let s1 := { s with lines := pushStyle s.lines ⟨ch, color⟩ ((x1, y1), (x2, y2)) }
  if s.range then s1.printLine ((x1, y1), (x2, y2)) color ch
  else (s1.updateXYMinMax (x1, y1)).updateXYMinMax (x2, y2)

/-- Read a finite auto-range accumulator.  Only meaningful (and only used in
claims) after at least one point or endpoint has been observed; the default
`0` stands for the garbage a `±inf` bound would produce in the source. -/
def optVal (o : Option ℚ) : ℚ := o.getD 0

/-- The `setCell` requests of one `render()` pass over the buffered data:
all lines (buffer order, Bresenham order within a line), then all points. -/
def renderOps (s : Plot) : List Op :=
  (s.lines.flatMap fun kv =>
    kv.2.flatMap fun l => lineOps s.topLeft s.dx s.dy s.w s.h l kv.1.co kv.1.ch)
  ++ s.points.flatMap fun kv =>
    kv.2.map fun p => pointOp s.topLeft s.dx s.dy s.w s.h p kv.1.co kv.1.ch

/-- `Plot::render`: if no explicit window is set, derive the window from the
auto-range bounds; then rasterize every buffered line, then every buffered
point, into the grid. -/
def Plot.render (s : Plot) : Plot :=
  let t := if s.range then s
    else { s with dx := optVal s.maxX - optVal s.minX,
                  dy := optVal s.maxY - optVal s.minY,
                  topLeft := (optVal s.minX, optVal s.minY) }
  let g := applyOps t.w t.h t.background t.invertedY t.printBuf
  { t with printBuf := g (renderOps t) }

/-- 8-adjacency of two sub-row coordinates: they differ by at most one in
each component. -/
def adj8 (p q : ℤ × ℤ) : Prop :=
  (q.1 - p.1).natAbs ≤ 1 ∧ (q.2 - p.2).natAbs ≤ 1

/-- A submitted primitive: one call to `Plot::point` or `Plot::line`,
with its color and glyph. -/
inductive Prim
  | pt (p : ℚ × ℚ) (color ch : ℕ)
  | ln (a b : ℚ × ℚ) (color ch : ℕ)

/-- Perform one submission on a `Plot`. -/
def addPrim (s : Plot) : Prim → Plot
  | .pt p color ch => s.point p.1 p.2 color ch
  | .ln a b color ch => s.line a.1 a.2 b.1 b.2 color ch

/-- Perform a sequence of submissions, first to last. -/
def addAll (s : Plot) (prims : List Prim) : Plot := prims.foldl addPrim s

/-- The data-space endpoints a primitive feeds to `updateXYMinMax`,
in call order. -/
def Prim.endpoints : Prim → List (ℚ × ℚ)
  | .pt p _ _ => [p]
  | .ln a b _ _ => [a, b]

/-- All endpoints of a submission sequence, in call order. -/
def epList (prims : List Prim) : List (ℚ × ℚ) := prims.flatMap Prim.endpoints

/-- The effect of one `setCell` request on the single cell `i`: the cell is
rewritten when the request is in bounds and targets index `i`, otherwise it
is left alone. -/
def cellStep (w h bg : ℕ) (inv : Bool) (i : ℕ) (c : Cell) (op : Op) : Cell :=
  if ¬ oob w h op ∧ opIdx w op = i then cellWrite bg inv op c else c

/-- The effect of a `setCell` request sequence on the single cell `i`. -/
def cellFold (w h bg : ℕ) (inv : Bool) (i : ℕ) (ops : List Op) (c : Cell) :
    Cell :=
  ops.foldl (cellStep w h bg inv i) c

/-- The sub-row parity of a `setCell` request, adjusted for Y-inversion:
`1` selects the upper attribute nibble, `0` the lower. -/
def opPar (inv : Bool) (op : Op) : ℤ := (if inv then op.y + 1 else op.y) % 2

/-- The color of the last request in `ops` that hits cell `i` with parity
`par`, starting from accumulator `acc`. -/
def lastWriter (w h : ℕ) (inv : Bool) (i : ℕ) (par : ℤ) (acc : Option ℕ)
    (ops : List Op) : Option ℕ :=
  ops.foldl (fun a op =>
    if ¬ oob w h op ∧ opIdx w op = i ∧ opPar inv op = par
    then some op.color else a) acc

/-- Whether some request in `ops` hits cell `i`. -/
def hitsCell (w h : ℕ) (i : ℕ) (ops : List Op) : Bool :=
  ops.any fun op => decide (¬ oob w h op ∧ opIdx w op = i)

/-- Recombine an attribute byte from optional nibble overrides: the lower
nibble is `lo` (else the original lower nibble of `v`), the upper is `hi`
(else the original upper nibble of `v`). -/
def nibComb (hi lo : Option ℕ) (v : ℕ) : ℕ :=
  lo.getD (v % 16) + hi.getD (v / 16) * 16

/-- Left-biased choice on optional values. -/
def optOr (a b : Option ℕ) : Option ℕ :=
  match a with
  | some k => some k
  | none => b

end SCP

namespace SCP

/-! ## Helper lemmas -/

/-- Truncation toward zero is floor on nonnegative values and ceiling on
negative values. -/
theorem ratTrunc_eq_floor_or_ceil (q : ℚ) :
    ratTrunc q = if 0 ≤ q then ⌊q⌋ else ⌈q⌉ := by
  unfold ratTrunc
  split_ifs with h
  · rw [Rat.floor_def]
    exact Int.tdiv_eq_ediv (Rat.num_nonneg.mpr h) (Int.natCast_nonneg _)
  · have hq : (0 : ℚ) ≤ -q := le_of_lt (neg_pos.mpr (lt_of_not_ge h))
    have h1 : (-q).num.tdiv (-q).den = ⌊-q⌋ := by
      rw [Rat.floor_def]
      exact Int.tdiv_eq_ediv (Rat.num_nonneg.mpr hq) (Int.natCast_nonneg _)
    rw [Rat.neg_num, Rat.neg_den, Int.neg_tdiv, Int.floor_neg] at h1
    omega

/-! ## Claims -/

/-- **C2** (corrected).  The coordinate mapping of `printPoint`/`printLine`
is the C++ `double`-to-`int` conversion, which truncates toward zero: it
agrees with `floor` when the scaled offset is nonnegative, but equals `ceil`
(not `floor`) when the scaled offset is negative. -/
theorem map_trunc_floor_ceil (x ox dX y oy dY : ℚ) (w h : ℕ)
    (hdx : dX ≠ 0) (hdy : dY ≠ 0) :
    (mapCol x ox dX w =
      if 0 ≤ (x - ox) * w / dX then ⌊(x - ox) * w / dX⌋
      else ⌈(x - ox) * w / dX⌉) ∧
    (mapSubrow y oy dY h =
      if 0 ≤ (y - oy) * h * 2 / dY then ⌊(y - oy) * h * 2 / dY⌋
      else ⌈(y - oy) * h * 2 / dY⌉) :=
  ⟨ratTrunc_eq_floor_or_ceil _, ratTrunc_eq_floor_or_ceil _⟩

/-- **C8** (confirmed).  A `setCell` request with `col` outside `[0, w)` or
`subrow` outside `[0, 2*h)` leaves the whole grid unchanged. -/
theorem setCell_out_of_bounds_noop (w h bg : ℕ) (inv : Bool) (g : ℕ → Cell)
    (x y : ℤ) (color ch : ℕ)
    (hx : x < 0 ∨ (w : ℤ) ≤ x ∨ y < 0 ∨ (h : ℤ) * 2 ≤ y) :
    setCellG w h bg inv g x y color ch = g := by
  unfold setCellG
  exact if_pos hx

/-- **C10** (confirmed).  `setBackgroundColor` changes only the stored
background color: the grid, both data buffers, the auto-range accumulators,
the window, and every other field are left unchanged. -/
theorem setBackgroundColor_frame (s : Plot) (c : ℕ) :
    (s.setBackgroundColor c).printBuf = s.printBuf ∧
    (s.setBackgroundColor c).points = s.points ∧
    (s.setBackgroundColor c).lines = s.lines ∧
    (s.setBackgroundColor c).minX = s.minX ∧
    (s.setBackgroundColor c).maxX = s.maxX ∧
    (s.setBackgroundColor c).minY = s.minY ∧
    (s.setBackgroundColor c).maxY = s.maxY ∧
    (s.setBackgroundColor c).w = s.w ∧
    (s.setBackgroundColor c).h = s.h ∧
    (s.setBackgroundColor c).range = s.range ∧
    (s.setBackgroundColor c).invertedY = s.invertedY ∧
    (s.setBackgroundColor c).topLeft = s.topLeft ∧
    (s.setBackgroundColor c).dx = s.dx ∧
    (s.setBackgroundColor c).dy = s.dy ∧
    (s.setBackgroundColor c).background = c :=
  ⟨rfl, rfl, rfl, rfl, rfl, rfl, rfl, rfl, rfl, rfl, rfl, rfl, rfl, rfl, rfl⟩

end SCP

namespace SCP

/-- An in-bounds `setCell` rewrites exactly its target cell. -/
theorem setCellG_in_bounds (w h bg : ℕ) (inv : Bool) (g : ℕ → Cell)
    (x y : ℤ) (color ch : ℕ) (hin : ¬ oob w h ⟨x, y, color, ch⟩) :
    setCellG w h bg inv g x y color ch =
      Function.update g (opIdx w ⟨x, y, color, ch⟩)
        (cellWrite bg inv ⟨x, y, color, ch⟩ (g (opIdx w ⟨x, y, color, ch⟩))) := by
  unfold setCellG
  exact if_neg hin

/-- **C6** (confirmed).  An in-bounds `setCell` with an explicit (non-sentinel)
character on a cell currently holding the `BLOCK` marker: when the cell's
lower nibble differs from the background the old attribute is shifted one
nibble up (the old lower color becomes the upper nibble) and the new color
becomes the lower nibble; otherwise only the lower nibble becomes the new
color; in either case the glyph becomes the new character. -/
theorem setCell_explicit_on_block (w h bg : ℕ) (inv : Bool) (g : ℕ → Cell)
    (x y : ℤ) (color ch : ℕ)
    (hin : ¬ oob w h ⟨x, y, color, ch⟩) (hch : ch ≠ BLOCK) (hcol : color < 16)
    (hblk : (g (opIdx w ⟨x, y, color, ch⟩)).ch = BLOCK) :
    (setCellG w h bg inv g x y color ch (opIdx w ⟨x, y, color, ch⟩)).ch = ch ∧
    ((g (opIdx w ⟨x, y, color, ch⟩)).co % 16 ≠ bg →
      (setCellG w h bg inv g x y color ch (opIdx w ⟨x, y, color, ch⟩)).co / 16 =
        (g (opIdx w ⟨x, y, color, ch⟩)).co % 16 ∧
      (setCellG w h bg inv g x y color ch (opIdx w ⟨x, y, color, ch⟩)).co % 16 =
        color) ∧
    ((g (opIdx w ⟨x, y, color, ch⟩)).co % 16 = bg →
      (setCellG w h bg inv g x y color ch (opIdx w ⟨x, y, color, ch⟩)).co / 16 =
        (g (opIdx w ⟨x, y, color, ch⟩)).co / 16 ∧
      (setCellG w h bg inv g x y color ch (opIdx w ⟨x, y, color, ch⟩)).co % 16 =
        color) := by
  rw [setCellG_in_bounds w h bg inv g x y color ch hin]
  rw [Function.update_same]
  set c0 := g (opIdx w ⟨x, y, color, ch⟩) with hc0
  have hBE : ¬ (BLOCK = EMPTY) := by
    unfold BLOCK EMPTY
    omega
  unfold cellWrite
  rw [if_neg hch]
  simp only [hblk, hBE, if_false, eq_self_iff_true, if_true]
  by_cases hbg : c0.co % 16 ≠ bg
  · rw [if_pos hbg]
    refine ⟨by trivial, fun _ => ⟨by omega, by omega⟩,
      fun hbgeq => absurd hbgeq hbg⟩
  · rw [if_neg hbg]
    refine ⟨by trivial, fun hbgne => absurd hbgne hbg,
      fun _ => ⟨by omega, by omega⟩⟩

end SCP

namespace SCP

/-- An in-bounds `setCell` call described by an `Op` rewrites exactly its
target cell. -/
theorem applyOp_in_bounds (w h bg : ℕ) (inv : Bool) (g : ℕ → Cell) (op : Op)
    (hin : ¬ oob w h op) :
    applyOp w h bg inv g op =
      Function.update g (opIdx w op) (cellWrite bg inv op (g (opIdx w op))) := by
  unfold applyOp setCellG
  exact if_neg hin

/-- **C5** (confirmed).  Submitting a point with palette color `C` and the
sentinel block glyph while an explicit window is active, with the mapped cell
in bounds: a previously empty cell's glyph becomes `BLOCK`, an already-`BLOCK`
cell stays `BLOCK`, and only the attribute nibble selected by the sub-row's
parity (adjusted for Y-inversion) becomes `C` — upper nibble when the
adjusted sub-row is odd, lower nibble when it is even — while the other
nibble keeps its previous value. -/
theorem point_block_sets_parity_nibble (s : Plot) (x y : ℚ) (C : ℕ)
    (hC : C < 16) (hr : s.range = true)
    (hin : ¬ oob s.w s.h (pointOp s.topLeft s.dx s.dy s.w s.h (x, y) C BLOCK)) :
    ((s.printBuf (opIdx s.w
        (pointOp s.topLeft s.dx s.dy s.w s.h (x, y) C BLOCK))).ch = EMPTY →
      ((s.point x y C BLOCK).printBuf (opIdx s.w
        (pointOp s.topLeft s.dx s.dy s.w s.h (x, y) C BLOCK))).ch = BLOCK) ∧
    ((s.printBuf (opIdx s.w
        (pointOp s.topLeft s.dx s.dy s.w s.h (x, y) C BLOCK))).ch = BLOCK →
      ((s.point x y C BLOCK).printBuf (opIdx s.w
        (pointOp s.topLeft s.dx s.dy s.w s.h (x, y) C BLOCK))).ch = BLOCK) ∧
    ((if s.invertedY then mapSubrow y s.topLeft.2 s.dy s.h + 1
        else mapSubrow y s.topLeft.2 s.dy s.h) % 2 = 1 →
      ((s.point x y C BLOCK).printBuf (opIdx s.w
        (pointOp s.topLeft s.dx s.dy s.w s.h (x, y) C BLOCK))).co / 16 = C ∧
      ((s.point x y C BLOCK).printBuf (opIdx s.w
        (pointOp s.topLeft s.dx s.dy s.w s.h (x, y) C BLOCK))).co % 16 =
        (s.printBuf (opIdx s.w
          (pointOp s.topLeft s.dx s.dy s.w s.h (x, y) C BLOCK))).co % 16) ∧
    ((if s.invertedY then mapSubrow y s.topLeft.2 s.dy s.h + 1
        else mapSubrow y s.topLeft.2 s.dy s.h) % 2 = 0 →
      ((s.point x y C BLOCK).printBuf (opIdx s.w
        (pointOp s.topLeft s.dx s.dy s.w s.h (x, y) C BLOCK))).co % 16 = C ∧
      ((s.point x y C BLOCK).printBuf (opIdx s.w
        (pointOp s.topLeft s.dx s.dy s.w s.h (x, y) C BLOCK))).co / 16 =
        (s.printBuf (opIdx s.w
          (pointOp s.topLeft s.dx s.dy s.w s.h (x, y) C BLOCK))).co / 16) := by
  have hbuf : (s.point x y C BLOCK).printBuf =
      applyOp s.w s.h s.background s.invertedY s.printBuf
        (pointOp s.topLeft s.dx s.dy s.w s.h (x, y) C BLOCK) := by
    unfold Plot.point Plot.printPoint
    rw [hr]
    rfl
  rw [hbuf, applyOp_in_bounds _ _ _ _ _ _ hin, Function.update_same]
  set c0 := s.printBuf (opIdx s.w
    (pointOp s.topLeft s.dx s.dy s.w s.h (x, y) C BLOCK)) with hc0
  have hBE : ¬ (BLOCK = EMPTY) := by
    unfold BLOCK EMPTY
    omega
  unfold cellWrite
  rw [if_pos (show (pointOp s.topLeft s.dx s.dy s.w s.h (x, y) C BLOCK).ch =
    BLOCK from rfl)]
  have hy : (pointOp s.topLeft s.dx s.dy s.w s.h (x, y) C BLOCK).y =
      mapSubrow y s.topLeft.2 s.dy s.h := rfl
  have hco : (pointOp s.topLeft s.dx s.dy s.w s.h (x, y) C BLOCK).color = C := rfl
  rw [hy, hco]
  refine ⟨fun hemp => ?_, fun hblk => ?_, fun hsel => ?_, fun hsel => ?_⟩
  · show (if c0.ch = EMPTY then BLOCK else c0.ch) = BLOCK
    rw [if_pos hemp]
  · show (if c0.ch = EMPTY then BLOCK else c0.ch) = BLOCK
    rw [hblk, if_neg hBE]
  · rw [if_pos hsel]
    exact ⟨show (c0.co % 16 + C * 16) / 16 = C by omega,
      show (c0.co % 16 + C * 16) % 16 = c0.co % 16 by omega⟩
  · rw [if_neg (show ¬ ((if s.invertedY then mapSubrow y s.topLeft.2 s.dy s.h + 1
      else mapSubrow y s.topLeft.2 s.dy s.h) % 2 = 1) by omega)]
    exact ⟨show (c0.co / 16 * 16 + C) % 16 = C by omega,
      show (c0.co / 16 * 16 + C) / 16 = c0.co / 16 by omega⟩

end SCP

namespace SCP

/-- **C7** (confirmed).  In a `render()` pass all buffered lines are
rasterized before any buffered point, so for a dataset holding one block
line of color `cL` and one later-added block point of a different color
`cP` whose mapped cell/sub-row lies on the line's Bresenham path, the
point's color is the final value of the relevant (lower, for an even
sub-row without Y-inversion) nibble of that cell after `render()`. -/
theorem render_point_over_line (s : Plot) (cL cP : ℕ)
    (l : (ℚ × ℚ) × (ℚ × ℚ)) (pt : ℚ × ℚ)
    (hlines : s.lines = [(⟨BLOCK, cL⟩, [l])])
    (hpoints : s.points = [(⟨BLOCK, cP⟩, [pt])])
    (hr : s.range = true) (hinv : s.invertedY = false)
    (hcP : cP < 16) (hne : cL ≠ cP)
    (hin : ¬ oob s.w s.h (pointOp s.topLeft s.dx s.dy s.w s.h pt cP BLOCK))
    (heven : (pointOp s.topLeft s.dx s.dy s.w s.h pt cP BLOCK).y % 2 = 0)
    (hshare : ((pointOp s.topLeft s.dx s.dy s.w s.h pt cP BLOCK).x,
        (pointOp s.topLeft s.dx s.dy s.w s.h pt cP BLOCK).y) ∈
      bresPath (mapCol l.1.1 s.topLeft.1 s.dx s.w)
        (mapSubrow l.1.2 s.topLeft.2 s.dy s.h)
        (mapCol l.2.1 s.topLeft.1 s.dx s.w)
        (mapSubrow l.2.2 s.topLeft.2 s.dy s.h)) :
    (s.render.printBuf (opIdx s.w
      (pointOp s.topLeft s.dx s.dy s.w s.h pt cP BLOCK))).co % 16 = cP := by
  have hbuf : s.render.printBuf =
      applyOps s.w s.h s.background s.invertedY s.printBuf (renderOps s) := by
    unfold Plot.render
    rw [hr]
    rfl
  have hops : renderOps s =
      lineOps s.topLeft s.dx s.dy s.w s.h l cL BLOCK ++
        [pointOp s.topLeft s.dx s.dy s.w s.h pt cP BLOCK] := by
    unfold renderOps
    rw [hlines, hpoints]
    simp
  rw [hbuf, hops]
  unfold applyOps
  rw [List.foldl_append, List.foldl_cons, List.foldl_nil]
  set g1 := List.foldl (applyOp s.w s.h s.background s.invertedY) s.printBuf
    (lineOps s.topLeft s.dx s.dy s.w s.h l cL BLOCK) with hg1
  rw [applyOp_in_bounds _ _ _ _ _ _ hin, Function.update_same]
  unfold cellWrite
  rw [if_pos (show (pointOp s.topLeft s.dx s.dy s.w s.h pt cP BLOCK).ch =
    BLOCK from rfl)]
  rw [hinv]
  rw [if_neg Bool.false_ne_true]
  rw [if_neg (show ¬ ((pointOp s.topLeft s.dx s.dy s.w s.h pt cP BLOCK).y
    % 2 = 1) by omega)]
  show ((g1 (opIdx s.w (pointOp s.topLeft s.dx s.dy s.w s.h pt cP BLOCK))).co
    / 16 * 16 + cP) % 16 = cP
  omega

end SCP

namespace SCP

/-- Prepending a step to a verified tail of the Bresenham walk. -/
theorem bres_cons_spec {R : (ℤ × ℤ) → (ℤ × ℤ) → Prop} {L : List (ℤ × ℤ)}
    {p q z : ℤ × ℤ} (hne : L ≠ []) (hhd : L.head? = some q)
    (hlast : L.getLast? = some z) (hch : List.Chain' R L) (hR : R p q) :
    (p :: L) ≠ [] ∧ (p :: L).head? = some p ∧ (p :: L).getLast? = some z ∧
      List.Chain' R (p :: L) ∧ (p :: L).length = L.length + 1 := by
  cases L with
  | nil => exact absurd rfl hne
  | cons c t =>
    have hq : c = q := by simpa using hhd
    subst hq
    refine ⟨by simp, by simp, ?_, ?_, by simp⟩
    · rw [List.getLast?_cons_cons]
      exact hlast
    · exact List.chain'_cons.mpr ⟨hR, hch⟩

/-- Main invariant of the `printLine` loop.  After `a` x-steps and `b`
y-steps of the walk toward `(x2, y2)` (`a ≤ dX`, `b ≤ dY`), with the error
accumulator at its loop value `dX*(1+b) - dY*(1+a)`, and with fuel at least
the number of remaining steps plus one, the loop emits a nonempty
8-connected coordinate list from the current position to exactly `(x2, y2)`,
of length at most the remaining-step bound. -/
theorem bresRun_spec (x2 y2 dX dY sx sy : ℤ) (hdX : 0 ≤ dX) (hdY : 0 ≤ dY)
    (hsx : sx = 1 ∨ sx = -1) (hsy : sy = 1 ∨ sy = -1) :
    ∀ (n : ℕ) (a b : ℕ) (x1 y1 e1 : ℤ),
      (a : ℤ) ≤ dX → (b : ℤ) ≤ dY →
      dX.toNat - a + (dY.toNat - b) + 1 ≤ n →
      x1 = x2 - sx * (dX - (a : ℤ)) → y1 = y2 - sy * (dY - (b : ℤ)) →
      e1 = dX * (1 + (b : ℤ)) - dY * (1 + (a : ℤ)) →
      bresRun x2 y2 dX dY sx sy n x1 y1 e1 ≠ [] ∧
      (bresRun x2 y2 dX dY sx sy n x1 y1 e1).head? = some (x1, y1) ∧
      (bresRun x2 y2 dX dY sx sy n x1 y1 e1).getLast? = some (x2, y2) ∧
      List.Chain' adj8 (bresRun x2 y2 dX dY sx sy n x1 y1 e1) ∧
      (bresRun x2 y2 dX dY sx sy n x1 y1 e1).length ≤
        dX.toNat - a + (dY.toNat - b) + 1 := by
  intro n
  induction n with
  | zero =>
    intro a b x1 y1 e1 ha hb hn hx hy he
    exact absurd hn (by omega)
  | succ n ih =>
    intro a b x1 y1 e1 ha hb hn hx hy he
    have hdXn : (dX.toNat : ℤ) = dX := Int.toNat_of_nonneg hdX
    have hdYn : (dY.toNat : ℤ) = dY := Int.toNat_of_nonneg hdY
    by_cases htgt : x1 = x2 ∧ y1 = y2
    · have hstep : bresRun x2 y2 dX dY sx sy (n + 1) x1 y1 e1 = [(x1, y1)] := by
        simp only [bresRun]
        rw [if_pos htgt]
      rw [hstep]
      refine ⟨by simp, by simp, by simp [htgt.1, htgt.2], ?_, by simp⟩
      exact List.chain'_singleton _
    · -- not yet at the target: at least one of the step counters is short
      have hxiff : x1 = x2 ↔ (a : ℤ) = dX := by
        subst hx
        rcases hsx with rfl | rfl <;> omega
      have hyiff : y1 = y2 ↔ (b : ℤ) = dY := by
        subst hy
        rcases hsy with rfl | rfl <;> omega
      -- no x-overshoot: when all x-steps are taken the x-condition is false
      have hc1f : (a : ℤ) = dX → ¬ (e1 > -dY) := by
        intro haX
        have hbY : (b : ℤ) < dY := by
          rcases lt_or_eq_of_le hb with h | h
          · exact h
          · exact absurd ⟨hxiff.mpr haX, hyiff.mpr h⟩ htgt
        have hprod : 0 ≤ dX * (dY - 1 - (b : ℤ)) :=
          mul_nonneg hdX (by omega)
        subst he
        rw [haX]
        nlinarith [hprod]
      -- no y-overshoot: when all y-steps are taken the y-condition is false
      have hc2f : (b : ℤ) = dY → ¬ (e1 * 2 < dX) := by
        intro hbY
        have haX : (a : ℤ) < dX := by
          rcases lt_or_eq_of_le ha with h | h
          · exact h
          · exact absurd ⟨hxiff.mpr h, hyiff.mpr hbY⟩ htgt
        have hprod : 0 ≤ dY * (dX - 1 - (a : ℤ)) :=
          mul_nonneg hdY (by omega)
        subst he
        rw [hbY]
        nlinarith [hprod]
      by_cases hc1 : e1 > -dY <;> by_cases hc2 : e1 * 2 < dX
      · -- both step: a+1 x-steps, b+1 y-steps
        have haX : (a : ℤ) < dX := by
          rcases lt_or_eq_of_le ha with h | h
          · exact h
          · exact absurd hc1 (hc1f h)
        have hbY : (b : ℤ) < dY := by
          rcases lt_or_eq_of_le hb with h | h
          · exact h
          · exact absurd hc2 (hc2f h)
        have hstep : bresRun x2 y2 dX dY sx sy (n + 1) x1 y1 e1 =
            (x1, y1) :: bresRun x2 y2 dX dY sx sy n (x1 + sx) (y1 + sy)
              (e1 - dY + dX) := by
          simp only [bresRun]
          rw [if_neg htgt, if_pos hc1, if_pos hc2]
        obtain ⟨hne', hhd', hlast', hch', hlen'⟩ :=
          ih (a + 1) (b + 1) (x1 + sx) (y1 + sy) (e1 - dY + dX)
            (by push_cast; omega) (by push_cast; omega) (by omega)
            (by subst hx; push_cast; ring) (by subst hy; push_cast; ring)
            (by subst he; push_cast; ring)
        have hR : adj8 (x1, y1) (x1 + sx, y1 + sy) := by
          constructor
          · show (x1 + sx - x1).natAbs ≤ 1
            rcases hsx with rfl | rfl <;> simp
          · show (y1 + sy - y1).natAbs ≤ 1
            rcases hsy with rfl | rfl <;> simp
        rw [hstep]
        obtain ⟨k1, k2, k3, k4, k5⟩ := bres_cons_spec hne' hhd' hlast' hch' hR
        exact ⟨k1, k2, k3, k4, by omega⟩
      · -- only x steps
        have haX : (a : ℤ) < dX := by
          rcases lt_or_eq_of_le ha with h | h
          · exact h
          · exact absurd hc1 (hc1f h)
        have hstep : bresRun x2 y2 dX dY sx sy (n + 1) x1 y1 e1 =
            (x1, y1) :: bresRun x2 y2 dX dY sx sy n (x1 + sx) y1
              (e1 - dY) := by
          simp only [bresRun]
          rw [if_neg htgt, if_pos hc1, if_neg hc2]
        obtain ⟨hne', hhd', hlast', hch', hlen'⟩ :=
          ih (a + 1) b (x1 + sx) y1 (e1 - dY)
            (by push_cast; omega) hb (by omega)
            (by subst hx; push_cast; ring) hy
            (by subst he; push_cast; ring)
        have hR : adj8 (x1, y1) (x1 + sx, y1) := by
          constructor
          · show (x1 + sx - x1).natAbs ≤ 1
            rcases hsx with rfl | rfl <;> simp
          · show (y1 - y1).natAbs ≤ 1
            simp
        rw [hstep]
        obtain ⟨k1, k2, k3, k4, k5⟩ := bres_cons_spec hne' hhd' hlast' hch' hR
        exact ⟨k1, k2, k3, k4, by omega⟩
      · -- only y steps
        have hbY : (b : ℤ) < dY := by
          rcases lt_or_eq_of_le hb with h | h
          · exact h
          · exact absurd hc2 (hc2f h)
        have hstep : bresRun x2 y2 dX dY sx sy (n + 1) x1 y1 e1 =
            (x1, y1) :: bresRun x2 y2 dX dY sx sy n x1 (y1 + sy)
              (e1 + dX) := by
          simp only [bresRun]
          rw [if_neg htgt, if_neg hc1, if_pos hc2]
        obtain ⟨hne', hhd', hlast', hch', hlen'⟩ :=
          ih a (b + 1) x1 (y1 + sy) (e1 + dX)
            ha (by push_cast; omega) (by omega)
            hx (by subst hy; push_cast; ring)
            (by subst he; push_cast; ring)
        have hR : adj8 (x1, y1) (x1, y1 + sy) := by
          constructor
          · show (x1 - x1).natAbs ≤ 1
            simp
          · show (y1 + sy - y1).natAbs ≤ 1
            rcases hsy with rfl | rfl <;> simp
        rw [hstep]
        obtain ⟨k1, k2, k3, k4, k5⟩ := bres_cons_spec hne' hhd' hlast' hch' hR
        exact ⟨k1, k2, k3, k4, by omega⟩
      · -- neither condition: only possible with dX = dY = 0, contradiction
        exfalso
        push_neg at hc1 hc2
        have hdX0 : dX = 0 := by linarith
        have hdY0 : dY = 0 := by linarith
        refine htgt ⟨?_, ?_⟩
        · subst hx
          have ha0 : (a : ℤ) = 0 := by omega
          rw [hdX0, ha0]
          ring
        · subst hy
          have hb0 : (b : ℤ) = 0 := by omega
          rw [hdY0, hb0]
          ring

end SCP

namespace SCP

/-- The full specification of one `printLine` walk: nonempty, starts at the
first mapped endpoint, ends at the second, 8-connected, and visits at most
`|x2-x1| + |y2-y1| + 1` cells. -/
theorem bresPath_spec (x1 y1 x2 y2 : ℤ) :
    bresPath x1 y1 x2 y2 ≠ [] ∧
    (bresPath x1 y1 x2 y2).head? = some (x1, y1) ∧
    (bresPath x1 y1 x2 y2).getLast? = some (x2, y2) ∧
    List.Chain' adj8 (bresPath x1 y1 x2 y2) ∧
    (bresPath x1 y1 x2 y2).length ≤
      (x2 - x1).natAbs + (y2 - y1).natAbs + 1 := by
  have habsx : (|x2 - x1|).toNat = (x2 - x1).natAbs := by
    rw [Int.abs_eq_natAbs]
    exact Int.toNat_natCast _
  have habsy : (|y2 - y1|).toNat = (y2 - y1).natAbs := by
    rw [Int.abs_eq_natAbs]
    exact Int.toNat_natCast _
  obtain ⟨h1, h2, h3, h4, h5⟩ :=
    bresRun_spec x2 y2 (|x2 - x1|) (|y2 - y1|)
      (if x1 < x2 then 1 else -1) (if y1 < y2 then 1 else -1)
      (abs_nonneg _) (abs_nonneg _)
      (by split <;> simp) (by split <;> simp)
      ((|x2 - x1|).toNat + (|y2 - y1|).toNat + 1) 0 0
      x1 y1 (|x2 - x1| - |y2 - y1|)
      (by simpa using abs_nonneg (x2 - x1))
      (by simpa using abs_nonneg (y2 - y1))
      (by omega)
      (by
        rcases lt_or_ge x1 x2 with h | h
        · rw [if_pos h, abs_of_pos (by omega : (0 : ℤ) < x2 - x1)]
          push_cast
          ring
        · rw [if_neg (not_lt.mpr h), abs_of_nonpos (by omega : x2 - x1 ≤ 0)]
          push_cast
          ring)
      (by
        rcases lt_or_ge y1 y2 with h | h
        · rw [if_pos h, abs_of_pos (by omega : (0 : ℤ) < y2 - y1)]
          push_cast
          ring
        · rw [if_neg (not_lt.mpr h), abs_of_nonpos (by omega : y2 - y1 ≤ 0)]
          push_cast
          ring)
      (by push_cast; ring)
  have hdef : bresPath x1 y1 x2 y2 =
      bresRun x2 y2 (|x2 - x1|) (|y2 - y1|) (if x1 < x2 then 1 else -1)
        (if y1 < y2 then 1 else -1)
        ((|x2 - x1|).toNat + (|y2 - y1|).toNat + 1) x1 y1
        (|x2 - x1| - |y2 - y1|) := rfl
  rw [hdef]
  refine ⟨h1, h2, h3, h4, ?_⟩
  omega

/-- **C3** (confirmed).  For integer mapped endpoints, the sequence of cells
visited by the `printLine` walk starts at `(x1, y1)`, ends at `(x2, y2)`
(both endpoints are set), and consecutive visited coordinates differ by at
most 1 in each component: an unbroken 8-connected path. -/
theorem bresPath_endpoints_adjacent (x1 y1 x2 y2 : ℤ) :
    (bresPath x1 y1 x2 y2).head? = some (x1, y1) ∧
    (bresPath x1 y1 x2 y2).getLast? = some (x2, y2) ∧
    List.Chain' adj8 (bresPath x1 y1 x2 y2) :=
  ⟨(bresPath_spec x1 y1 x2 y2).2.1, (bresPath_spec x1 y1 x2 y2).2.2.1,
    (bresPath_spec x1 y1 x2 y2).2.2.2.1⟩

/-- **C4** (confirmed).  The `printLine` loop terminates for every pair of
integer mapped endpoints: run with any iteration allowance of at least
`|x2-x1| + |y2-y1| + 1`, the walk ends exactly at `(x2, y2)` after at most
`|x2-x1| + |y2-y1| + 1` visited cells — for every combination of
`dx = |x2-x1|` and `dy = |y2-y1|`, including `dx = 0`, `dy = 0`, and
`dy > dx`. -/
theorem bresRun_terminates (x1 y1 x2 y2 : ℤ) (n : ℕ)
    (hn : (x2 - x1).natAbs + (y2 - y1).natAbs + 1 ≤ n) :
    (bresRun x2 y2 (|x2 - x1|) (|y2 - y1|) (if x1 < x2 then 1 else -1)
        (if y1 < y2 then 1 else -1) n x1 y1
        (|x2 - x1| - |y2 - y1|)).getLast? = some (x2, y2) ∧
    (bresRun x2 y2 (|x2 - x1|) (|y2 - y1|) (if x1 < x2 then 1 else -1)
        (if y1 < y2 then 1 else -1) n x1 y1
        (|x2 - x1| - |y2 - y1|)).length ≤
      (x2 - x1).natAbs + (y2 - y1).natAbs + 1 := by
  have habsx : (|x2 - x1|).toNat = (x2 - x1).natAbs := by
    rw [Int.abs_eq_natAbs]
    exact Int.toNat_natCast _
  have habsy : (|y2 - y1|).toNat = (y2 - y1).natAbs := by
    rw [Int.abs_eq_natAbs]
    exact Int.toNat_natCast _
  obtain ⟨h1, h2, h3, h4, h5⟩ :=
    bresRun_spec x2 y2 (|x2 - x1|) (|y2 - y1|)
      (if x1 < x2 then 1 else -1) (if y1 < y2 then 1 else -1)
      (abs_nonneg _) (abs_nonneg _)
      (by split <;> simp) (by split <;> simp)
      n 0 0 x1 y1 (|x2 - x1| - |y2 - y1|)
      (by simpa using abs_nonneg (x2 - x1))
      (by simpa using abs_nonneg (y2 - y1))
      (by omega)
      (by
        rcases lt_or_ge x1 x2 with h | h
        · rw [if_pos h, abs_of_pos (by omega : (0 : ℤ) < x2 - x1)]
          push_cast
          ring
        · rw [if_neg (not_lt.mpr h), abs_of_nonpos (by omega : x2 - x1 ≤ 0)]
          push_cast
          ring)
      (by
        rcases lt_or_ge y1 y2 with h | h
        · rw [if_pos h, abs_of_pos (by omega : (0 : ℤ) < y2 - y1)]
          push_cast
          ring
        · rw [if_neg (not_lt.mpr h), abs_of_nonpos (by omega : y2 - y1 ≤ 0)]
          push_cast
          ring)
      (by push_cast; ring)
  exact ⟨h3, by omega⟩

end SCP

namespace SCP

/-- Submitting a point with no explicit window set only buffers it and
updates the four running bounds. -/
theorem point_noRange_fields (s : Plot) (x y : ℚ) (c ch : ℕ)
    (h : s.range = false) :
    (s.point x y c ch).range = false ∧
    (s.point x y c ch).minX = updMin s.minX x ∧
    (s.point x y c ch).minY = updMin s.minY y ∧
    (s.point x y c ch).maxX = updMax s.maxX x ∧
    (s.point x y c ch).maxY = updMax s.maxY y := by
  unfold Plot.point
  rw [h]
  exact ⟨rfl, rfl, rfl, rfl, rfl⟩

/-- Submitting a line with no explicit window set only buffers it and
updates the four running bounds with both endpoints, first `a` then `b`. -/
theorem line_noRange_fields (s : Plot) (x1 y1 x2 y2 : ℚ) (c ch : ℕ)
    (h : s.range = false) :
    (s.line x1 y1 x2 y2 c ch).range = false ∧
    (s.line x1 y1 x2 y2 c ch).minX = updMin (updMin s.minX x1) x2 ∧
    (s.line x1 y1 x2 y2 c ch).minY = updMin (updMin s.minY y1) y2 ∧
    (s.line x1 y1 x2 y2 c ch).maxX = updMax (updMax s.maxX x1) x2 ∧
    (s.line x1 y1 x2 y2 c ch).maxY = updMax (updMax s.maxY y1) y2 := by
  unfold Plot.line
  rw [h]
  exact ⟨rfl, rfl, rfl, rfl, rfl⟩

/-- In auto-range mode, a submission sequence folds `updateXYMinMax` over
all endpoints in call order. -/
theorem addAll_bounds (prims : List Prim) : ∀ s : Plot, s.range = false →
    (addAll s prims).range = false ∧
    (addAll s prims).minX =
      (epList prims).foldl (fun acc p => updMin acc p.1) s.minX ∧
    (addAll s prims).minY =
      (epList prims).foldl (fun acc p => updMin acc p.2) s.minY ∧
    (addAll s prims).maxX =
      (epList prims).foldl (fun acc p => updMax acc p.1) s.maxX ∧
    (addAll s prims).maxY =
      (epList prims).foldl (fun acc p => updMax acc p.2) s.maxY := by
  induction prims with
  | nil =>
    intro s h
    exact ⟨h, rfl, rfl, rfl, rfl⟩
  | cons prim rest ih =>
    intro s h
    cases prim with
    | pt p c ch =>
      obtain ⟨h1, h2, h3, h4, h5⟩ := point_noRange_fields s p.1 p.2 c ch h
      have hstep : addAll s (Prim.pt p c ch :: rest) =
          addAll (s.point p.1 p.2 c ch) rest := rfl
      have hepc : epList (Prim.pt p c ch :: rest) = p :: epList rest := rfl
      obtain ⟨g1, g2, g3, g4, g5⟩ := ih (s.point p.1 p.2 c ch) h1
      rw [hstep, hepc]
      refine ⟨g1, ?_, ?_, ?_, ?_⟩
      · rw [g2, h2, List.foldl_cons]
      · rw [g3, h3, List.foldl_cons]
      · rw [g4, h4, List.foldl_cons]
      · rw [g5, h5, List.foldl_cons]
    | ln a b c ch =>
      obtain ⟨h1, h2, h3, h4, h5⟩ :=
        line_noRange_fields s a.1 a.2 b.1 b.2 c ch h
      have hstep : addAll s (Prim.ln a b c ch :: rest) =
          addAll (s.line a.1 a.2 b.1 b.2 c ch) rest := rfl
      have hepc : epList (Prim.ln a b c ch :: rest) =
          a :: b :: epList rest := rfl
      obtain ⟨g1, g2, g3, g4, g5⟩ := ih (s.line a.1 a.2 b.1 b.2 c ch) h1
      rw [hstep, hepc]
      refine ⟨g1, ?_, ?_, ?_, ?_⟩
      · rw [g2, h2, List.foldl_cons, List.foldl_cons]
      · rw [g3, h3, List.foldl_cons, List.foldl_cons]
      · rw [g4, h4, List.foldl_cons, List.foldl_cons]
      · rw [g5, h5, List.foldl_cons, List.foldl_cons]

/-- `minX > v ? v : minX` on an already-finite accumulator is `min`. -/
theorem updMin_some (m v : ℚ) : updMin (some m) v = some (min m v) := by
  show (if m > v then some v else some m) = some (min m v)
  split_ifs with h
  · rw [min_eq_right (le_of_lt h)]
  · rw [min_eq_left (not_lt.mp h)]

/-- `maxX < v ? v : maxX` on an already-finite accumulator is `max`. -/
theorem updMax_some (m v : ℚ) : updMax (some m) v = some (max m v) := by
  show (if m < v then some v else some m) = some (max m v)
  split_ifs with h
  · rw [max_eq_right (le_of_lt h)]
  · rw [max_eq_left (not_lt.mp h)]

/-- A fold of the min accumulator started at a finite value stays finite and
computes the running minimum. -/
theorem foldl_updMin (f : ℚ × ℚ → ℚ) (l : List (ℚ × ℚ)) : ∀ m : ℚ,
    l.foldl (fun acc p => updMin acc (f p)) (some m) =
      some (l.foldl (fun acc p => min acc (f p)) m) := by
  induction l with
  | nil =>
    intro m
    rfl
  | cons p t ih =>
    intro m
    rw [List.foldl_cons, List.foldl_cons, updMin_some]
    exact ih _

/-- A fold of the max accumulator started at a finite value stays finite and
computes the running maximum. -/
theorem foldl_updMax (f : ℚ × ℚ → ℚ) (l : List (ℚ × ℚ)) : ∀ m : ℚ,
    l.foldl (fun acc p => updMax acc (f p)) (some m) =
      some (l.foldl (fun acc p => max acc (f p)) m) := by
  induction l with
  | nil =>
    intro m
    rfl
  | cons p t ih =>
    intro m
    rw [List.foldl_cons, List.foldl_cons, updMax_some]
    exact ih _

/-- **C9** (confirmed).  With no explicit window set (auto-range state with
fresh accumulators), after any nonempty submission sequence `render()`
derives the implicit window from the running bounding box of all submitted
point and segment endpoints: the origin is the componentwise minimum and the
extent is maximum minus minimum.  In particular, after adding the points
`(0,0)` and `(10,10)` the window origin is `(0,0)` and the extent is
`(10,10)` (see the witness). -/
theorem render_auto_window_bbox (prims : List Prim) (s0 : Plot)
    (hr : s0.range = false) (hminX : s0.minX = none) (hminY : s0.minY = none)
    (hmaxX : s0.maxX = none) (hmaxY : s0.maxY = none)
    (p0 : ℚ × ℚ) (rest : List (ℚ × ℚ)) (hep : epList prims = p0 :: rest) :
    (addAll s0 prims).render.topLeft =
      (rest.foldl (fun acc p => min acc p.1) p0.1,
       rest.foldl (fun acc p => min acc p.2) p0.2) ∧
    (addAll s0 prims).render.dx =
      rest.foldl (fun acc p => max acc p.1) p0.1 -
        rest.foldl (fun acc p => min acc p.1) p0.1 ∧
    (addAll s0 prims).render.dy =
      rest.foldl (fun acc p => max acc p.2) p0.2 -
        rest.foldl (fun acc p => min acc p.2) p0.2 := by
  obtain ⟨g1, g2, g3, g4, g5⟩ := addAll_bounds prims s0 hr
  rw [hep, hminX, List.foldl_cons] at g2
  rw [hep, hminY, List.foldl_cons] at g3
  rw [hep, hmaxX, List.foldl_cons] at g4
  rw [hep, hmaxY, List.foldl_cons] at g5
  have hun : updMin (none : Option ℚ) p0.1 = some p0.1 := rfl
  rw [hun, foldl_updMin] at g2
  rw [show updMin (none : Option ℚ) p0.2 = some p0.2 from rfl,
    foldl_updMin] at g3
  rw [show updMax (none : Option ℚ) p0.1 = some p0.1 from rfl,
    foldl_updMax] at g4
  rw [show updMax (none : Option ℚ) p0.2 = some p0.2 from rfl,
    foldl_updMax] at g5
  have hrend :
      (addAll s0 prims).render.topLeft =
        (optVal (addAll s0 prims).minX, optVal (addAll s0 prims).minY) ∧
      (addAll s0 prims).render.dx =
        optVal (addAll s0 prims).maxX - optVal (addAll s0 prims).minX ∧
      (addAll s0 prims).render.dy =
        optVal (addAll s0 prims).maxY - optVal (addAll s0 prims).minY := by
    unfold Plot.render
    rw [g1]
    exact ⟨rfl, rfl, rfl⟩
  rw [hrend.1, hrend.2.1, hrend.2.2, g2, g3, g4, g5]
  exact ⟨rfl, rfl, rfl⟩

end SCP

namespace SCP

/-- The `BLOCK` marker is distinct from the `EMPTY` glyph. -/
theorem block_ne_empty : ¬ (BLOCK = EMPTY) := by
  unfold BLOCK EMPTY
  omega

/-- One `setCell` request, observed at an arbitrary cell `i`. -/
theorem applyOp_apply (w h bg : ℕ) (inv : Bool) (g : ℕ → Cell) (op : Op)
    (i : ℕ) :
    applyOp w h bg inv g op i = cellStep w h bg inv i (g i) op := by
  unfold applyOp setCellG cellStep
  by_cases hb : oob w h op
  · rw [if_pos hb, if_neg (fun hcon => hcon.1 hb)]
  · rw [if_neg hb, Function.update_apply]
    by_cases hi : i = opIdx w op
    · rw [if_pos hi, if_pos ⟨hb, hi.symm⟩, hi]
    · rw [if_neg hi, if_neg (fun hcon => hi (hcon.2.symm))]

/-- A `setCell` request sequence, observed at an arbitrary cell `i`. -/
theorem applyOps_apply (w h bg : ℕ) (inv : Bool) :
    ∀ (ops : List Op) (g : ℕ → Cell) (i : ℕ),
      applyOps w h bg inv g ops i = cellFold w h bg inv i ops (g i) := by
  intro ops
  induction ops with
  | nil =>
    intro g i
    rfl
  | cons op rest ih =>
    intro g i
    show applyOps w h bg inv (applyOp w h bg inv g op) rest i = _
    rw [ih]
    unfold cellFold
    rw [List.foldl_cons, applyOp_apply]

/-- Restarting the last-writer fold from an arbitrary accumulator. -/
theorem lastWriter_restart (w h : ℕ) (inv : Bool) (i : ℕ) (par : ℤ) :
    ∀ (ops : List Op) (acc : Option ℕ),
      lastWriter w h inv i par acc ops =
        optOr (lastWriter w h inv i par none ops) acc := by
  intro ops
  induction ops with
  | nil =>
    intro acc
    rfl
  | cons op rest ih =>
    intro acc
    show lastWriter w h inv i par
        (if ¬ oob w h op ∧ opIdx w op = i ∧ opPar inv op = par
         then some op.color else acc) rest =
      optOr (lastWriter w h inv i par
        (if ¬ oob w h op ∧ opIdx w op = i ∧ opPar inv op = par
         then some op.color else none) rest) acc
    by_cases hc : ¬ oob w h op ∧ opIdx w op = i ∧ opPar inv op = par
    · rw [if_pos hc, if_pos hc, ih (some op.color)]
      rcases hrw : lastWriter w h inv i par none rest with _ | k
      · rfl
      · rfl
    · rw [if_neg hc, if_neg hc, ih acc]

/-- The last-writer fold only ever records palette colors. -/
theorem lastWriter_bound (w h : ℕ) (inv : Bool) (i : ℕ) (par : ℤ) :
    ∀ (ops : List Op) (acc : Option ℕ),
      (∀ op ∈ ops, op.color < 16) → (∀ k, acc = some k → k < 16) →
      ∀ k, lastWriter w h inv i par acc ops = some k → k < 16 := by
  intro ops
  induction ops with
  | nil =>
    intro acc hops hacc k hk
    exact hacc k hk
  | cons op rest ih =>
    intro acc hops hacc k hk
    refine ih (if ¬ oob w h op ∧ opIdx w op = i ∧ opPar inv op = par
        then some op.color else acc)
      (fun o ho => hops o (List.mem_cons_of_mem _ ho)) ?_ k hk
    intro k' hk'
    by_cases hc : ¬ oob w h op ∧ opIdx w op = i ∧ opPar inv op = par
    · rw [if_pos hc] at hk'
      injection hk' with h'
      rw [← h']
      exact hops op (List.mem_cons_self op rest)
    · rw [if_neg hc] at hk'
      exact hacc k' hk'

/-- Glyph component of a block-only `setCell` sequence at cell `i`: the
glyph is promoted from `EMPTY` to `BLOCK` when the cell is hit, and is
otherwise untouched. -/
theorem cellFold_ch_char (w h bg : ℕ) (inv : Bool) (i : ℕ) :
    ∀ (ops : List Op), (∀ op ∈ ops, op.ch = BLOCK) →
    ∀ c : Cell, (cellFold w h bg inv i ops c).ch =
      if hitsCell w h i ops then (if c.ch = EMPTY then BLOCK else c.ch)
      else c.ch := by
  intro ops
  induction ops with
  | nil =>
    intro _ c
    rfl
  | cons op rest ih =>
    intro hops c
    show (cellFold w h bg inv i rest (cellStep w h bg inv i c op)).ch = _
    rw [ih (fun o ho => hops o (List.mem_cons_of_mem _ ho))]
    by_cases hhit : ¬ oob w h op ∧ opIdx w op = i
    · have hch : (cellStep w h bg inv i c op).ch =
          (if c.ch = EMPTY then BLOCK else c.ch) := by
        unfold cellStep
        rw [if_pos hhit]
        unfold cellWrite
        rw [if_pos (hops op (List.mem_cons_self op rest))]
      have hhits : hitsCell w h i (op :: rest) = true := by
        unfold hitsCell
        rw [List.any_cons]
        simp [hhit]
      have ht : (if (if c.ch = EMPTY then BLOCK else c.ch) = EMPTY then BLOCK
          else (if c.ch = EMPTY then BLOCK else c.ch)) =
          (if c.ch = EMPTY then BLOCK else c.ch) := by
        by_cases he : c.ch = EMPTY
        · rw [if_pos he, if_neg block_ne_empty]
        · rw [if_neg he, if_neg he]
      rw [hch, ht, ite_self, hhits, if_pos rfl]
    · have hstep : cellStep w h bg inv i c op = c := by
        unfold cellStep
        rw [if_neg hhit]
      have hhits : hitsCell w h i (op :: rest) = hitsCell w h i rest := by
        unfold hitsCell
        rw [List.any_cons]
        simp [hhit]
      rw [hstep, hhits]

end SCP

namespace SCP

/-- Recombining with no overrides is the identity. -/
theorem nibComb_nn (v : ℕ) : nibComb none none v = v := by
  unfold nibComb
  simp only [Option.getD_none]
  omega

/-- Attribute component of a block-only `setCell` sequence at cell `i`,
relative to an original byte `v`: each nibble holds the color of the last
in-bounds request of the matching parity, or its original value. -/
theorem cellFold_co_char (w h bg : ℕ) (inv : Bool) (i : ℕ) :
    ∀ (ops : List Op), (∀ op ∈ ops, op.ch = BLOCK ∧ op.color < 16) →
    ∀ (c : Cell) (v : ℕ) (accH accL : Option ℕ),
      (∀ k, accL = some k → k < 16) →
      c.co = nibComb accH accL v →
      (cellFold w h bg inv i ops c).co =
        nibComb (lastWriter w h inv i 1 accH ops)
          (lastWriter w h inv i 0 accL ops) v := by
  intro ops
  induction ops with
  | nil =>
    intro _ c v accH accL hbndL hc
    exact hc
  | cons op rest ih =>
    intro hops c v accH accL hbndL hc
    show (cellFold w h bg inv i rest (cellStep w h bg inv i c op)).co = _
    have hL : accL.getD (v % 16) < 16 := by
      cases accL with
      | none =>
        simp only [Option.getD_none]
        omega
      | some k =>
        simp only [Option.getD_some]
        exact hbndL k rfl
    by_cases hhit : ¬ oob w h op ∧ opIdx w op = i
    · have hcw : cellStep w h bg inv i c op = cellWrite bg inv op c := by
        unfold cellStep
        rw [if_pos hhit]
      have hpar2 : opPar inv op = 0 ∨ opPar inv op = 1 := by
        unfold opPar
        omega
      rcases hpar2 with hp0 | hp1
      · -- lower-nibble write
        have hco' : (cellWrite bg inv op c).co = c.co / 16 * 16 + op.color := by
          unfold cellWrite
          rw [if_pos (hops op (List.mem_cons_self op rest)).1]
          show (if ((if inv then op.y + 1 else op.y) % 2 = 1)
            then c.co % 16 + op.color * 16
            else c.co / 16 * 16 + op.color) = c.co / 16 * 16 + op.color
          rw [if_neg (show ¬ ((if inv then op.y + 1 else op.y) % 2 = 1) by
            unfold opPar at hp0
            omega)]
        have hunfL : lastWriter w h inv i 0 accL (op :: rest) =
            lastWriter w h inv i 0 (some op.color) rest := by
          show lastWriter w h inv i 0
            (if ¬ oob w h op ∧ opIdx w op = i ∧ opPar inv op = 0
             then some op.color else accL) rest = _
          rw [if_pos ⟨hhit.1, hhit.2, hp0⟩]
        have hunfH : lastWriter w h inv i 1 accH (op :: rest) =
            lastWriter w h inv i 1 accH rest := by
          show lastWriter w h inv i 1
            (if ¬ oob w h op ∧ opIdx w op = i ∧ opPar inv op = 1
             then some op.color else accH) rest = _
          rw [if_neg (by
            intro hcon
            have h1 := hcon.2.2
            omega)]
        rw [hunfL, hunfH, hcw]
        refine ih (fun o ho => hops o (List.mem_cons_of_mem _ ho))
          (cellWrite bg inv op c) v accH (some op.color) ?_ ?_
        · intro k hk
          injection hk with h'
          rw [← h']
          exact (hops op (List.mem_cons_self op rest)).2
        · rw [hco', hc]
          unfold nibComb
          simp only [Option.getD_some]
          omega
      · -- upper-nibble write
        have hco' : (cellWrite bg inv op c).co = c.co % 16 + op.color * 16 := by
          unfold cellWrite
          rw [if_pos (hops op (List.mem_cons_self op rest)).1]
          show (if ((if inv then op.y + 1 else op.y) % 2 = 1)
            then c.co % 16 + op.color * 16
            else c.co / 16 * 16 + op.color) = c.co % 16 + op.color * 16
          rw [if_pos (show ((if inv then op.y + 1 else op.y) % 2 = 1) by
            unfold opPar at hp1
            omega)]
        have hunfH : lastWriter w h inv i 1 accH (op :: rest) =
            lastWriter w h inv i 1 (some op.color) rest := by
          show lastWriter w h inv i 1
            (if ¬ oob w h op ∧ opIdx w op = i ∧ opPar inv op = 1
             then some op.color else accH) rest = _
          rw [if_pos ⟨hhit.1, hhit.2, hp1⟩]
        have hunfL : lastWriter w h inv i 0 accL (op :: rest) =
            lastWriter w h inv i 0 accL rest := by
          show lastWriter w h inv i 0
            (if ¬ oob w h op ∧ opIdx w op = i ∧ opPar inv op = 0
             then some op.color else accL) rest = _
          rw [if_neg (by
            intro hcon
            have h1 := hcon.2.2
            omega)]
        rw [hunfL, hunfH, hcw]
        refine ih (fun o ho => hops o (List.mem_cons_of_mem _ ho))
          (cellWrite bg inv op c) v (some op.color) accL hbndL ?_
        rw [hco', hc]
        unfold nibComb
        simp only [Option.getD_some]
        omega
    · -- the request misses cell i
      have hstep : cellStep w h bg inv i c op = c := by
        unfold cellStep
        rw [if_neg hhit]
      have hunfH : lastWriter w h inv i 1 accH (op :: rest) =
          lastWriter w h inv i 1 accH rest := by
        show lastWriter w h inv i 1
          (if ¬ oob w h op ∧ opIdx w op = i ∧ opPar inv op = 1
           then some op.color else accH) rest = _
        rw [if_neg (fun hcon => hhit ⟨hcon.1, hcon.2.1⟩)]
      have hunfL : lastWriter w h inv i 0 accL (op :: rest) =
          lastWriter w h inv i 0 accL rest := by
        show lastWriter w h inv i 0
          (if ¬ oob w h op ∧ opIdx w op = i ∧ opPar inv op = 0
           then some op.color else accL) rest = _
        rw [if_neg (fun hcon => hhit ⟨hcon.1, hcon.2.1⟩)]
      rw [hstep, hunfL, hunfH]
      exact ih (fun o ho => hops o (List.mem_cons_of_mem _ ho))
        c v accH accL hbndL hc

end SCP

namespace SCP

/-- A block-only `setCell` sequence is idempotent on every single cell. -/
theorem cellFold_block_idem (w h bg : ℕ) (inv : Bool) (i : ℕ) (ops : List Op)
    (hops : ∀ op ∈ ops, op.ch = BLOCK ∧ op.color < 16) (c : Cell) :
    cellFold w h bg inv i ops (cellFold w h bg inv i ops c) =
      cellFold w h bg inv i ops c := by
  have hopsch : ∀ op ∈ ops, op.ch = BLOCK := fun op ho => (hops op ho).1
  have hopscol : ∀ op ∈ ops, op.color < 16 := fun op ho => (hops op ho).2
  have hLW0 : ∀ k, lastWriter w h inv i 0 none ops = some k → k < 16 :=
    lastWriter_bound w h inv i 0 ops none hopscol (by simp)
  have habs : ∀ par : ℤ,
      lastWriter w h inv i par (lastWriter w h inv i par none ops) ops =
        lastWriter w h inv i par none ops := by
    intro par
    rw [lastWriter_restart]
    rcases hrw : lastWriter w h inv i par none ops with _ | k
    · rfl
    · rfl
  ext
  · rw [cellFold_ch_char w h bg inv i ops hopsch,
      cellFold_ch_char w h bg inv i ops hopsch]
    by_cases hh : hitsCell w h i ops = true
    · rw [if_pos hh, if_pos hh]
      by_cases he : c.ch = EMPTY
      · rw [if_pos he, if_neg block_ne_empty]
      · rw [if_neg he, if_neg he]
    · rw [if_neg hh, if_neg hh]
  · rw [cellFold_co_char w h bg inv i ops hops c c.co none none
      (by simp) (nibComb_nn c.co).symm]
    rw [cellFold_co_char w h bg inv i ops hops
      (cellFold w h bg inv i ops c) c.co
      (lastWriter w h inv i 1 none ops) (lastWriter w h inv i 0 none ops)
      hLW0
      (cellFold_co_char w h bg inv i ops hops c c.co none none
        (by simp) (nibComb_nn c.co).symm)]
    rw [habs 1, habs 0]

/-- A block-only `setCell` sequence is idempotent on the whole grid. -/
theorem applyOps_block_idem (w h bg : ℕ) (inv : Bool) (ops : List Op)
    (hops : ∀ op ∈ ops, op.ch = BLOCK ∧ op.color < 16) (g : ℕ → Cell) :
    applyOps w h bg inv (applyOps w h bg inv g ops) ops =
      applyOps w h bg inv g ops := by
  funext i
  rw [applyOps_apply, applyOps_apply]
  exact cellFold_block_idem w h bg inv i ops hops (g i)

end SCP

namespace SCP

/-- When every style key in both buffers uses the block glyph and a palette
color, every `setCell` request issued by `render()` does too. -/
theorem renderOps_block (s : Plot)
    (hl : ∀ kv ∈ s.lines, kv.1.ch = BLOCK ∧ kv.1.co < 16)
    (hp : ∀ kv ∈ s.points, kv.1.ch = BLOCK ∧ kv.1.co < 16) :
    ∀ op ∈ renderOps s, op.ch = BLOCK ∧ op.color < 16 := by
  intro op hop
  unfold renderOps at hop
  rw [List.mem_append] at hop
  rcases hop with hop | hop
  · rw [List.mem_flatMap] at hop
    obtain ⟨kv, hkv, hop⟩ := hop
    rw [List.mem_flatMap] at hop
    obtain ⟨l, hml, hop⟩ := hop
    unfold lineOps at hop
    rw [List.mem_map] at hop
    obtain ⟨q, hq, rfl⟩ := hop
    exact ⟨(hl kv hkv).1, (hl kv hkv).2⟩
  · rw [List.mem_flatMap] at hop
    obtain ⟨kv, hkv, hop⟩ := hop
    rw [List.mem_map] at hop
    obtain ⟨p, hpp, rfl⟩ := hop
    exact ⟨(hp kv hkv).1, (hp kv hkv).2⟩

/-- `render()` with an explicit window: full record equation. -/
theorem render_eq_true (u : Plot) (hr : u.range = true) :
    u.render =
      { u with
        printBuf := applyOps u.w u.h u.background u.invertedY u.printBuf (renderOps u) } := by
  unfold Plot.render
  rw [if_pos hr]

/-- `render()` in auto-range mode: full record equation, with the window
derived from the accumulated bounds. -/
theorem render_eq_false (u : Plot) (hr : u.range = false) :
    u.render =
      { u with
        dx := optVal u.maxX - optVal u.minX,
        dy := optVal u.maxY - optVal u.minY,
        topLeft := (optVal u.minX, optVal u.minY),
        printBuf := applyOps u.w u.h u.background u.invertedY u.printBuf (renderOps { u with dx := optVal u.maxX - optVal u.minX, dy := optVal u.maxY - optVal u.minY, topLeft := (optVal u.minX, optVal u.minY) }) } := by
  unfold Plot.render
  rw [if_neg (show ¬ u.range = true by rw [hr]; exact Bool.false_ne_true)]

/-- **C1** (corrected, amended part).  When every style in the Dataset uses
the sentinel block glyph with a palette color, a second `render()` with
Dataset and ViewWindow unchanged reproduces exactly the Grid of the first
(for an explicit window or the implicit auto-range window alike).  The
unrestricted claim is false — see the counterexample: `render()` does not
clear the Grid, and with a block line and an explicit-glyph point on one
cell the second pass reads the leftover cell state and produces different
contents. -/
theorem render_idempotent_of_block_styles (s : Plot)
    (hl : ∀ kv ∈ s.lines, kv.1.ch = BLOCK ∧ kv.1.co < 16)
    (hp : ∀ kv ∈ s.points, kv.1.ch = BLOCK ∧ kv.1.co < 16) :
    s.render.render.printBuf = s.render.printBuf := by
  cases hr : s.range with
  | true =>
    have e1 := render_eq_true s hr
    have hr2 : s.render.range = true := by
      rw [e1]
      exact hr
    have e2 := render_eq_true s.render hr2
    rw [e2, e1]
    show applyOps s.w s.h s.background s.invertedY (applyOps s.w s.h s.background s.invertedY s.printBuf (renderOps s)) (renderOps s) = applyOps s.w s.h s.background s.invertedY s.printBuf (renderOps s)
    exact applyOps_block_idem _ _ _ _ _ (renderOps_block s hl hp) _
  | false =>
    have e1 := render_eq_false s hr
    have hr2 : s.render.range = false := by
      rw [e1]
      exact hr
    have e2 := render_eq_false s.render hr2
    rw [e2, e1]
    show applyOps s.w s.h s.background s.invertedY (applyOps s.w s.h s.background s.invertedY s.printBuf (renderOps { s with dx := optVal s.maxX - optVal s.minX, dy := optVal s.maxY - optVal s.minY, topLeft := (optVal s.minX, optVal s.minY) })) (renderOps { s with dx := optVal s.maxX - optVal s.minX, dy := optVal s.maxY - optVal s.minY, topLeft := (optVal s.minX, optVal s.minY) }) = applyOps s.w s.h s.background s.invertedY s.printBuf (renderOps { s with dx := optVal s.maxX - optVal s.minX, dy := optVal s.maxY - optVal s.minY, topLeft := (optVal s.minX, optVal s.minY) })
    refine applyOps_block_idem _ _ _ _ _ (renderOps_block _ ?_ ?_) _
    · exact hl
    · exact hp

end SCP

namespace SCP

section ConcreteEvaluation

attribute [local semireducible] Rat.mul Rat.add Rat.sub Rat.inv Rat.ofScientific

/-- **C1** (corrected, counterexample).  A dataset holding one block-glyph
line (`WHITE`) and one explicit-glyph point (`'X' = 88`, `RED`) that map to
the same cell, with the implicit window derived from the two distinct
x-values `0` and `1`: the Grid cell after two `render()` calls differs from
the cell after one, because the second pass reads the glyph and attribute
state the first pass left in the cell (the first render leaves the cell
attribute `0xF1`, the second `0xFF`). -/
theorem render_twice_differs_cex :
    (((({} : Plot).setSize 2 1).line 0 0 1 1 WHITE BLOCK).point 0 0 RED 88).render.render.printBuf 0 ≠ (((({} : Plot).setSize 2 1).line 0 0 1 1 WHITE BLOCK).point 0 0 RED 88).render.printBuf 0 := by
  decide

/-- Witness for the amended C1 theorem: a concrete block-only dataset
(one `WHITE` block line over the implicit window). -/
theorem render_idempotent_of_block_styles_witness :
    ((({} : Plot).setSize 2 1).line 0 0 1 1 WHITE BLOCK).render.render.printBuf = ((({} : Plot).setSize 2 1).line 0 0 1 1 WHITE BLOCK).render.printBuf :=
  render_idempotent_of_block_styles ((({} : Plot).setSize 2 1).line 0 0 1 1 WHITE BLOCK) (by decide) (by decide)

/-- **C2** (corrected, counterexample).  A point half a unit left of the
window origin (`x - origin.x = -1/2`, `w = 10`, `dx = 10`): the code maps it
to column `0` (truncation toward zero), while the claimed `floor` is `-1`. -/
theorem mapCol_not_floor_cex :
    mapCol (-(1 : ℚ)/2) 0 10 10 = 0 ∧
    ⌊(-(1 : ℚ)/2 - 0) * ((10 : ℕ) : ℚ) / 10⌋ = -1 := by
  constructor
  · decide
  · rw [Rat.floor_def]
    decide

/-- Witness for the amended C2 theorem at `x = 1/2`, `origin = 0`,
`dx = dy = 10`, `w = h = 10`. -/
theorem map_trunc_floor_ceil_witness :
    (10 : ℚ) ≠ 0 ∧
    ((mapCol ((1 : ℚ)/2) 0 10 10 =
      if 0 ≤ ((1 : ℚ)/2 - 0) * ((10 : ℕ) : ℚ) / 10 then ⌊((1 : ℚ)/2 - 0) * ((10 : ℕ) : ℚ) / 10⌋ else ⌈((1 : ℚ)/2 - 0) * ((10 : ℕ) : ℚ) / 10⌉) ∧
     (mapSubrow ((1 : ℚ)/2) 0 10 10 =
      if 0 ≤ ((1 : ℚ)/2 - 0) * ((10 : ℕ) : ℚ) * 2 / 10 then ⌊((1 : ℚ)/2 - 0) * ((10 : ℕ) : ℚ) * 2 / 10⌋ else ⌈((1 : ℚ)/2 - 0) * ((10 : ℕ) : ℚ) * 2 / 10⌉)) :=
  ⟨by decide,
    map_trunc_floor_ceil ((1 : ℚ)/2) 0 10 ((1 : ℚ)/2) 0 10 10 10
      (by decide) (by decide)⟩

/-- Witness for C4 at endpoints `(0,0)` to `(3,7)` (a `dy > dx` case) with
iteration allowance `11`. -/
theorem bresRun_terminates_witness :
    ((3 : ℤ) - 0).natAbs + ((7 : ℤ) - 0).natAbs + 1 ≤ 11 ∧
    ((bresRun 3 7 (|(3 : ℤ) - 0|) (|(7 : ℤ) - 0|) (if (0 : ℤ) < 3 then 1 else -1) (if (0 : ℤ) < 7 then 1 else -1) 11 0 0 (|(3 : ℤ) - 0| - |(7 : ℤ) - 0|)).getLast? = some (3, 7) ∧
     (bresRun 3 7 (|(3 : ℤ) - 0|) (|(7 : ℤ) - 0|) (if (0 : ℤ) < 3 then 1 else -1) (if (0 : ℤ) < 7 then 1 else -1) 11 0 0 (|(3 : ℤ) - 0| - |(7 : ℤ) - 0|)).length ≤ ((3 : ℤ) - 0).natAbs + ((7 : ℤ) - 0).natAbs + 1) :=
  ⟨by decide, bresRun_terminates 0 0 3 7 11 (by decide)⟩

/-- Witness for C5: a `4×2` plot with explicit window `(0,0)`–`(4,4)`;
the point `(1,1)` with color `RED` maps to column 1, sub-row 1 (odd parity,
upper nibble). -/
theorem point_block_sets_parity_nibble_witness :
    RED < 16 ∧ ((({} : Plot).setSize 4 2).setDrawRange 0 0 4 4).range = true ∧
    ¬ oob ((({} : Plot).setSize 4 2).setDrawRange 0 0 4 4).w ((({} : Plot).setSize 4 2).setDrawRange 0 0 4 4).h (pointOp ((({} : Plot).setSize 4 2).setDrawRange 0 0 4 4).topLeft ((({} : Plot).setSize 4 2).setDrawRange 0 0 4 4).dx ((({} : Plot).setSize 4 2).setDrawRange 0 0 4 4).dy ((({} : Plot).setSize 4 2).setDrawRange 0 0 4 4).w ((({} : Plot).setSize 4 2).setDrawRange 0 0 4 4).h (1, 1) RED BLOCK) ∧
    (((((({} : Plot).setSize 4 2).setDrawRange 0 0 4 4).printBuf (opIdx ((({} : Plot).setSize 4 2).setDrawRange 0 0 4 4).w (pointOp ((({} : Plot).setSize 4 2).setDrawRange 0 0 4 4).topLeft ((({} : Plot).setSize 4 2).setDrawRange 0 0 4 4).dx ((({} : Plot).setSize 4 2).setDrawRange 0 0 4 4).dy ((({} : Plot).setSize 4 2).setDrawRange 0 0 4 4).w ((({} : Plot).setSize 4 2).setDrawRange 0 0 4 4).h (1, 1) RED BLOCK))).ch = EMPTY →
      ((((({} : Plot).setSize 4 2).setDrawRange 0 0 4 4).point 1 1 RED BLOCK).printBuf (opIdx ((({} : Plot).setSize 4 2).setDrawRange 0 0 4 4).w (pointOp ((({} : Plot).setSize 4 2).setDrawRange 0 0 4 4).topLeft ((({} : Plot).setSize 4 2).setDrawRange 0 0 4 4).dx ((({} : Plot).setSize 4 2).setDrawRange 0 0 4 4).dy ((({} : Plot).setSize 4 2).setDrawRange 0 0 4 4).w ((({} : Plot).setSize 4 2).setDrawRange 0 0 4 4).h (1, 1) RED BLOCK))).ch = BLOCK) ∧
     ((((({} : Plot).setSize 4 2).setDrawRange 0 0 4 4).printBuf (opIdx ((({} : Plot).setSize 4 2).setDrawRange 0 0 4 4).w (pointOp ((({} : Plot).setSize 4 2).setDrawRange 0 0 4 4).topLeft ((({} : Plot).setSize 4 2).setDrawRange 0 0 4 4).dx ((({} : Plot).setSize 4 2).setDrawRange 0 0 4 4).dy ((({} : Plot).setSize 4 2).setDrawRange 0 0 4 4).w ((({} : Plot).setSize 4 2).setDrawRange 0 0 4 4).h (1, 1) RED BLOCK))).ch = BLOCK →
      ((((({} : Plot).setSize 4 2).setDrawRange 0 0 4 4).point 1 1 RED BLOCK).printBuf (opIdx ((({} : Plot).setSize 4 2).setDrawRange 0 0 4 4).w (pointOp ((({} : Plot).setSize 4 2).setDrawRange 0 0 4 4).topLeft ((({} : Plot).setSize 4 2).setDrawRange 0 0 4 4).dx ((({} : Plot).setSize 4 2).setDrawRange 0 0 4 4).dy ((({} : Plot).setSize 4 2).setDrawRange 0 0 4 4).w ((({} : Plot).setSize 4 2).setDrawRange 0 0 4 4).h (1, 1) RED BLOCK))).ch = BLOCK) ∧
     ((if ((({} : Plot).setSize 4 2).setDrawRange 0 0 4 4).invertedY then mapSubrow 1 ((({} : Plot).setSize 4 2).setDrawRange 0 0 4 4).topLeft.2 ((({} : Plot).setSize 4 2).setDrawRange 0 0 4 4).dy ((({} : Plot).setSize 4 2).setDrawRange 0 0 4 4).h + 1
        else mapSubrow 1 ((({} : Plot).setSize 4 2).setDrawRange 0 0 4 4).topLeft.2 ((({} : Plot).setSize 4 2).setDrawRange 0 0 4 4).dy ((({} : Plot).setSize 4 2).setDrawRange 0 0 4 4).h) % 2 = 1 →
      ((((({} : Plot).setSize 4 2).setDrawRange 0 0 4 4).point 1 1 RED BLOCK).printBuf (opIdx ((({} : Plot).setSize 4 2).setDrawRange 0 0 4 4).w (pointOp ((({} : Plot).setSize 4 2).setDrawRange 0 0 4 4).topLeft ((({} : Plot).setSize 4 2).setDrawRange 0 0 4 4).dx ((({} : Plot).setSize 4 2).setDrawRange 0 0 4 4).dy ((({} : Plot).setSize 4 2).setDrawRange 0 0 4 4).w ((({} : Plot).setSize 4 2).setDrawRange 0 0 4 4).h (1, 1) RED BLOCK))).co / 16 = RED ∧
      ((((({} : Plot).setSize 4 2).setDrawRange 0 0 4 4).point 1 1 RED BLOCK).printBuf (opIdx ((({} : Plot).setSize 4 2).setDrawRange 0 0 4 4).w (pointOp ((({} : Plot).setSize 4 2).setDrawRange 0 0 4 4).topLeft ((({} : Plot).setSize 4 2).setDrawRange 0 0 4 4).dx ((({} : Plot).setSize 4 2).setDrawRange 0 0 4 4).dy ((({} : Plot).setSize 4 2).setDrawRange 0 0 4 4).w ((({} : Plot).setSize 4 2).setDrawRange 0 0 4 4).h (1, 1) RED BLOCK))).co % 16 =
        (((({} : Plot).setSize 4 2).setDrawRange 0 0 4 4).printBuf (opIdx ((({} : Plot).setSize 4 2).setDrawRange 0 0 4 4).w (pointOp ((({} : Plot).setSize 4 2).setDrawRange 0 0 4 4).topLeft ((({} : Plot).setSize 4 2).setDrawRange 0 0 4 4).dx ((({} : Plot).setSize 4 2).setDrawRange 0 0 4 4).dy ((({} : Plot).setSize 4 2).setDrawRange 0 0 4 4).w ((({} : Plot).setSize 4 2).setDrawRange 0 0 4 4).h (1, 1) RED BLOCK))).co % 16) ∧
     ((if ((({} : Plot).setSize 4 2).setDrawRange 0 0 4 4).invertedY then mapSubrow 1 ((({} : Plot).setSize 4 2).setDrawRange 0 0 4 4).topLeft.2 ((({} : Plot).setSize 4 2).setDrawRange 0 0 4 4).dy ((({} : Plot).setSize 4 2).setDrawRange 0 0 4 4).h + 1
        else mapSubrow 1 ((({} : Plot).setSize 4 2).setDrawRange 0 0 4 4).topLeft.2 ((({} : Plot).setSize 4 2).setDrawRange 0 0 4 4).dy ((({} : Plot).setSize 4 2).setDrawRange 0 0 4 4).h) % 2 = 0 →
      ((((({} : Plot).setSize 4 2).setDrawRange 0 0 4 4).point 1 1 RED BLOCK).printBuf (opIdx ((({} : Plot).setSize 4 2).setDrawRange 0 0 4 4).w (pointOp ((({} : Plot).setSize 4 2).setDrawRange 0 0 4 4).topLeft ((({} : Plot).setSize 4 2).setDrawRange 0 0 4 4).dx ((({} : Plot).setSize 4 2).setDrawRange 0 0 4 4).dy ((({} : Plot).setSize 4 2).setDrawRange 0 0 4 4).w ((({} : Plot).setSize 4 2).setDrawRange 0 0 4 4).h (1, 1) RED BLOCK))).co % 16 = RED ∧
      ((((({} : Plot).setSize 4 2).setDrawRange 0 0 4 4).point 1 1 RED BLOCK).printBuf (opIdx ((({} : Plot).setSize 4 2).setDrawRange 0 0 4 4).w (pointOp ((({} : Plot).setSize 4 2).setDrawRange 0 0 4 4).topLeft ((({} : Plot).setSize 4 2).setDrawRange 0 0 4 4).dx ((({} : Plot).setSize 4 2).setDrawRange 0 0 4 4).dy ((({} : Plot).setSize 4 2).setDrawRange 0 0 4 4).w ((({} : Plot).setSize 4 2).setDrawRange 0 0 4 4).h (1, 1) RED BLOCK))).co / 16 =
        (((({} : Plot).setSize 4 2).setDrawRange 0 0 4 4).printBuf (opIdx ((({} : Plot).setSize 4 2).setDrawRange 0 0 4 4).w (pointOp ((({} : Plot).setSize 4 2).setDrawRange 0 0 4 4).topLeft ((({} : Plot).setSize 4 2).setDrawRange 0 0 4 4).dx ((({} : Plot).setSize 4 2).setDrawRange 0 0 4 4).dy ((({} : Plot).setSize 4 2).setDrawRange 0 0 4 4).w ((({} : Plot).setSize 4 2).setDrawRange 0 0 4 4).h (1, 1) RED BLOCK))).co / 16)) :=
  ⟨by decide, by decide, by decide,
    point_block_sets_parity_nibble ((({} : Plot).setSize 4 2).setDrawRange 0 0 4 4) 1 1 RED (by decide) (by decide)
      (by decide)⟩

/-- Witness for C6: an in-bounds explicit-glyph write (`'A' = 65`, color 3)
on a cell holding the `BLOCK` marker with attribute `5` (lower nibble `5`
differs from background `0`). -/
theorem setCell_explicit_on_block_witness :
    ¬ oob 10 10 ⟨0, 0, 3, 65⟩ ∧ (65 : ℕ) ≠ BLOCK ∧ (3 : ℕ) < 16 ∧
    ((fun _ => (⟨BLOCK, 5⟩ : Cell)) (opIdx 10 ⟨0, 0, 3, 65⟩) : Cell).ch = BLOCK ∧
    ((setCellG 10 10 0 false (fun _ => (⟨BLOCK, 5⟩ : Cell)) 0 0 3 65 (opIdx 10 ⟨0, 0, 3, 65⟩)).ch = 65 ∧
     (((fun _ => (⟨BLOCK, 5⟩ : Cell)) (opIdx 10 ⟨0, 0, 3, 65⟩) : Cell).co % 16 ≠ 0 →
      (setCellG 10 10 0 false (fun _ => (⟨BLOCK, 5⟩ : Cell)) 0 0 3 65 (opIdx 10 ⟨0, 0, 3, 65⟩)).co / 16 =
        ((fun _ => (⟨BLOCK, 5⟩ : Cell)) (opIdx 10 ⟨0, 0, 3, 65⟩) : Cell).co % 16 ∧
      (setCellG 10 10 0 false (fun _ => (⟨BLOCK, 5⟩ : Cell)) 0 0 3 65 (opIdx 10 ⟨0, 0, 3, 65⟩)).co % 16 = 3) ∧
     (((fun _ => (⟨BLOCK, 5⟩ : Cell)) (opIdx 10 ⟨0, 0, 3, 65⟩) : Cell).co % 16 = 0 →
      (setCellG 10 10 0 false (fun _ => (⟨BLOCK, 5⟩ : Cell)) 0 0 3 65 (opIdx 10 ⟨0, 0, 3, 65⟩)).co / 16 =
        ((fun _ => (⟨BLOCK, 5⟩ : Cell)) (opIdx 10 ⟨0, 0, 3, 65⟩) : Cell).co / 16 ∧
      (setCellG 10 10 0 false (fun _ => (⟨BLOCK, 5⟩ : Cell)) 0 0 3 65 (opIdx 10 ⟨0, 0, 3, 65⟩)).co % 16 = 3)) :=
  ⟨by decide, by decide, by decide, by decide,
    setCell_explicit_on_block 10 10 0 false (fun _ => (⟨BLOCK, 5⟩ : Cell)) 0 0 3 65 (by decide)
      (by decide) (by decide) (by decide)⟩

/-- Witness for C7: explicit window `(0,0)`–`(4,4)` on a `4×2` plot, a
`WHITE` block line from `(0,0)` to `(3,3)` and a later `RED` block point at
`(0,0)`; both map to cell `(0,0)`, sub-row 0, and after `render()` the
point's color `RED` is the lower nibble there. -/
theorem render_point_over_line_witness :
    WHITE ≠ RED ∧
    (((pointOp ((((({} : Plot).setSize 4 2).setDrawRange 0 0 4 4).line 0 0 3 3 WHITE BLOCK).point 0 0 RED BLOCK).topLeft ((((({} : Plot).setSize 4 2).setDrawRange 0 0 4 4).line 0 0 3 3 WHITE BLOCK).point 0 0 RED BLOCK).dx ((((({} : Plot).setSize 4 2).setDrawRange 0 0 4 4).line 0 0 3 3 WHITE BLOCK).point 0 0 RED BLOCK).dy ((((({} : Plot).setSize 4 2).setDrawRange 0 0 4 4).line 0 0 3 3 WHITE BLOCK).point 0 0 RED BLOCK).w ((((({} : Plot).setSize 4 2).setDrawRange 0 0 4 4).line 0 0 3 3 WHITE BLOCK).point 0 0 RED BLOCK).h (0, 0) RED BLOCK).x, (pointOp ((((({} : Plot).setSize 4 2).setDrawRange 0 0 4 4).line 0 0 3 3 WHITE BLOCK).point 0 0 RED BLOCK).topLeft ((((({} : Plot).setSize 4 2).setDrawRange 0 0 4 4).line 0 0 3 3 WHITE BLOCK).point 0 0 RED BLOCK).dx ((((({} : Plot).setSize 4 2).setDrawRange 0 0 4 4).line 0 0 3 3 WHITE BLOCK).point 0 0 RED BLOCK).dy ((((({} : Plot).setSize 4 2).setDrawRange 0 0 4 4).line 0 0 3 3 WHITE BLOCK).point 0 0 RED BLOCK).w ((((({} : Plot).setSize 4 2).setDrawRange 0 0 4 4).line 0 0 3 3 WHITE BLOCK).point 0 0 RED BLOCK).h (0, 0) RED BLOCK).y) ∈
      bresPath (mapCol 0 ((((({} : Plot).setSize 4 2).setDrawRange 0 0 4 4).line 0 0 3 3 WHITE BLOCK).point 0 0 RED BLOCK).topLeft.1 ((((({} : Plot).setSize 4 2).setDrawRange 0 0 4 4).line 0 0 3 3 WHITE BLOCK).point 0 0 RED BLOCK).dx ((((({} : Plot).setSize 4 2).setDrawRange 0 0 4 4).line 0 0 3 3 WHITE BLOCK).point 0 0 RED BLOCK).w)
        (mapSubrow 0 ((((({} : Plot).setSize 4 2).setDrawRange 0 0 4 4).line 0 0 3 3 WHITE BLOCK).point 0 0 RED BLOCK).topLeft.2 ((((({} : Plot).setSize 4 2).setDrawRange 0 0 4 4).line 0 0 3 3 WHITE BLOCK).point 0 0 RED BLOCK).dy ((((({} : Plot).setSize 4 2).setDrawRange 0 0 4 4).line 0 0 3 3 WHITE BLOCK).point 0 0 RED BLOCK).h)
        (mapCol 3 ((((({} : Plot).setSize 4 2).setDrawRange 0 0 4 4).line 0 0 3 3 WHITE BLOCK).point 0 0 RED BLOCK).topLeft.1 ((((({} : Plot).setSize 4 2).setDrawRange 0 0 4 4).line 0 0 3 3 WHITE BLOCK).point 0 0 RED BLOCK).dx ((((({} : Plot).setSize 4 2).setDrawRange 0 0 4 4).line 0 0 3 3 WHITE BLOCK).point 0 0 RED BLOCK).w)
        (mapSubrow 3 ((((({} : Plot).setSize 4 2).setDrawRange 0 0 4 4).line 0 0 3 3 WHITE BLOCK).point 0 0 RED BLOCK).topLeft.2 ((((({} : Plot).setSize 4 2).setDrawRange 0 0 4 4).line 0 0 3 3 WHITE BLOCK).point 0 0 RED BLOCK).dy ((((({} : Plot).setSize 4 2).setDrawRange 0 0 4 4).line 0 0 3 3 WHITE BLOCK).point 0 0 RED BLOCK).h)) ∧
    (((((({} : Plot).setSize 4 2).setDrawRange 0 0 4 4).line 0 0 3 3 WHITE BLOCK).point 0 0 RED BLOCK).render.printBuf (opIdx ((((({} : Plot).setSize 4 2).setDrawRange 0 0 4 4).line 0 0 3 3 WHITE BLOCK).point 0 0 RED BLOCK).w (pointOp ((((({} : Plot).setSize 4 2).setDrawRange 0 0 4 4).line 0 0 3 3 WHITE BLOCK).point 0 0 RED BLOCK).topLeft ((((({} : Plot).setSize 4 2).setDrawRange 0 0 4 4).line 0 0 3 3 WHITE BLOCK).point 0 0 RED BLOCK).dx ((((({} : Plot).setSize 4 2).setDrawRange 0 0 4 4).line 0 0 3 3 WHITE BLOCK).point 0 0 RED BLOCK).dy ((((({} : Plot).setSize 4 2).setDrawRange 0 0 4 4).line 0 0 3 3 WHITE BLOCK).point 0 0 RED BLOCK).w ((((({} : Plot).setSize 4 2).setDrawRange 0 0 4 4).line 0 0 3 3 WHITE BLOCK).point 0 0 RED BLOCK).h (0, 0) RED BLOCK))).co % 16 = RED :=
  ⟨by decide, by decide,
    render_point_over_line ((((({} : Plot).setSize 4 2).setDrawRange 0 0 4 4).line 0 0 3 3 WHITE BLOCK).point 0 0 RED BLOCK) WHITE RED ((0, 0), (3, 3)) (0, 0)
      (by decide) (by decide) (by decide) (by decide) (by decide) (by decide)
      (by decide) (by decide) (by decide)⟩

/-- Witness for C8: a write at column `-1` leaves the background grid
unchanged. -/
theorem setCell_out_of_bounds_noop_witness :
    ((-1 : ℤ) < 0 ∨ ((10 : ℕ) : ℤ) ≤ -1 ∨ (0 : ℤ) < 0 ∨
      ((10 : ℕ) : ℤ) * 2 ≤ 0) ∧
    setCellG 10 10 0 false (clearPlotG 0) (-1) 0 WHITE 0 = clearPlotG 0 :=
  ⟨by decide,
    setCell_out_of_bounds_noop 10 10 0 false (clearPlotG 0) (-1) 0 WHITE 0
      (by decide)⟩

/-- Witness for C9: with no explicit window, after adding the points `(0,0)`
and `(10,10)` the computed window origin is `(0,0)` and the extent is
`(10,10)`. -/
theorem render_auto_window_bbox_witness :
    epList [Prim.pt (0, 0) WHITE BLOCK, Prim.pt (10, 10) WHITE BLOCK] = ((0 : ℚ), (0 : ℚ)) :: [((10 : ℚ), (10 : ℚ))] ∧
    (addAll ({} : Plot) [Prim.pt (0, 0) WHITE BLOCK, Prim.pt (10, 10) WHITE BLOCK]).render.topLeft = (0, 0) ∧
    (addAll ({} : Plot) [Prim.pt (0, 0) WHITE BLOCK, Prim.pt (10, 10) WHITE BLOCK]).render.dx = 10 ∧
    (addAll ({} : Plot) [Prim.pt (0, 0) WHITE BLOCK, Prim.pt (10, 10) WHITE BLOCK]).render.dy = 10 := by
  have h := render_auto_window_bbox [Prim.pt (0, 0) WHITE BLOCK, Prim.pt (10, 10) WHITE BLOCK] ({} : Plot) rfl rfl rfl rfl rfl
    ((0 : ℚ), (0 : ℚ)) [((10 : ℚ), (10 : ℚ))] rfl
  refine ⟨rfl, ?_, ?_, ?_⟩
  · rw [h.1]
    decide
  · rw [h.2.1]
    decide
  · rw [h.2.2]
    decide

end ConcreteEvaluation

end SCP
